import Mathlib

/-!
Shallow embedding of the in-memory pub/sub broker (Node.js source:
`SubscriberQueue`, `PubSubEngine` and `WebSocketHandler`), together with
proofs of the specification claims.

JavaScript `Map`s are modelled as insertion-ordered association lists
(`Map.set` updates in place or appends; `Map.delete` removes; iteration is in
insertion order), `Set`s of strings as insertion-ordered duplicate-free lists,
and JavaScript truthiness of message fields by an explicit `JsValue` type.
Side effects (`ws.close`, `ws.send`) are returned as explicit effect lists,
and clock reads (`Date.now()`) are passed in as a `now` parameter.
-/

namespace PubSub

/-- A JavaScript value as far as truthiness and equality of message fields are
concerned (`null`, `undefined`, booleans, numbers, strings, objects). -/
inductive JsValue : Type
  | vNull : JsValue
  | vUndefined : JsValue
  | vBool : Bool → JsValue
  | vNum : Int → JsValue
  | vStr : String → JsValue
  | vObj : Nat → JsValue
  deriving DecidableEq, Repr

/-- JavaScript truthiness: `false`, `0`, `""`, `null`, `undefined` are falsy;
objects are always truthy. -/
def JsValue.truthy : JsValue → Bool
  | .vNull => false
  | .vUndefined => false
  | .vBool b => b
  | .vNum n => n != 0
  | .vStr s => s != ""
  | .vObj _ => true

/-- A published message: caller-supplied `id` and `payload` (a missing field is
`vUndefined`), optional timestamp `ts` (server-assigned when absent). -/
structure Message where
  id : JsValue
  payload : JsValue
  ts : Option Nat
  deriving DecidableEq, Repr

/-- The `messageToSend` wrapper built at fan-out/replay time:
`{type: 'event', topic, message, ts, replay?}`. -/
structure OutEvent where
  topic : String
  message : Message
  ts : Nat
  replay : Bool
  deriving DecidableEq, Repr

/-- Backpressure policy of a subscriber queue. -/
inductive Policy : Type
  | dropOldest : Policy
  | disconnect : Policy
  deriving DecidableEq, Repr

/-- The bounded per-subscriber queue (`class SubscriberQueue`). -/
structure SubscriberQueue where
  clientId : String
  maxSize : Nat
  policy : Policy
  queue : List OutEvent
  droppedCount : Nat
  totalProcessed : Nat
  deriving DecidableEq, Repr

/-- `new SubscriberQueue(clientId, maxSize, policy)`. -/
def SubscriberQueue.mk0 (clientId : String) (maxSize : Nat) (policy : Policy) :
    SubscriberQueue :=
  { clientId := clientId, maxSize := maxSize, policy := policy,
    queue := [], droppedCount := 0, totalProcessed := 0 }

/-- The `action` field of `SubscriberQueue.add`'s result. -/
inductive AddAction : Type
  | added : AddAction
  | droppedOldest : AddAction
  | disconnected : AddAction
  deriving DecidableEq, Repr

/-- The object returned by `SubscriberQueue.add`. -/
structure AddResult where
  success : Bool
  action : AddAction
  reason : Option String
  droppedMessage : Option OutEvent
  droppedCount : Nat
  deriving DecidableEq, Repr

/-- `SubscriberQueue.add(message, ws)`.  Returns the result object, the updated
queue, and whether `ws.close(1013, 'SLOW_CONSUMER')` was called.  `shift()` on
an empty array yields `undefined` (modelled by `head?`/`tail`). -/
def SubscriberQueue.add (q : SubscriberQueue) (m : OutEvent) :
    AddResult × SubscriberQueue × Bool :=
  if q.queue.length ≥ q.maxSize then
    match q.policy with
    | .disconnect =>
        ({ success := false, action := .disconnected, reason := some "SLOW_CONSUMER",
           droppedMessage := none, droppedCount := q.droppedCount }, q, true)
    | .dropOldest =>
        ({ success := true, action := .droppedOldest, reason := none,
           droppedMessage := q.queue.head?, droppedCount := q.droppedCount + 1 },
         { q with queue := q.queue.tail ++ [m],
                  droppedCount := q.droppedCount + 1,
                  totalProcessed := q.totalProcessed + 1 }, false)
  else
    ({ success := true, action := .added, reason := none,
       droppedMessage := none, droppedCount := q.droppedCount },
     { q with queue := q.queue ++ [m], totalProcessed := q.totalProcessed + 1 },
     false)

/-- `SubscriberQueue.getNext()`: pop from the head, `null` when empty. -/
def SubscriberQueue.getNext (q : SubscriberQueue) :
    Option OutEvent × SubscriberQueue :=
  (q.queue.head?, { q with queue := q.queue.tail })

/-- Fold `add` over a list of messages (a sequence of enqueues with no
intervening `getNext`), discarding results and effects. -/
def SubscriberQueue.addAll (q : SubscriberQueue) (ms : List OutEvent) :
    SubscriberQueue :=
  ms.foldl (fun q m => (q.add m).2.1) q

/-! ### Insertion-ordered association lists (JavaScript `Map`) -/

/-- `map.get(k)`: first binding of the key. -/
def alistGet {β : Type} : List (String × β) → String → Option β
  | [], _ => none
  | (k, v) :: rest, key => if k = key then some v else alistGet rest key

/-- `map.set(k, v)`: update in place when present, append when absent. -/
def alistSet {β : Type} : List (String × β) → String → β → List (String × β)
  | [], key, val => [(key, val)]
  | (k, v) :: rest, key, val =>
      if k = key then (k, val) :: rest else (k, v) :: alistSet rest key val

/-- `map.delete(k)`: remove the key's binding. -/
def alistDelete {β : Type} : List (String × β) → String → List (String × β)
  | [], _ => []
  | (k, v) :: rest, key =>
      if k = key then rest else (k, v) :: alistDelete rest key

/-- `map.has(k)`. -/
def alistHas {β : Type} (l : List (String × β)) (key : String) : Bool :=
  (alistGet l key).isSome

/-- An insertion-ordered `Set` of strings: `add` appends when absent. -/
def ssetAdd (l : List String) (x : String) : List String :=
  if x ∈ l then l else l ++ [x]

/-- `set.delete(x)`. -/
def ssetDelete (l : List String) (x : String) : List String :=
  l.filter (fun y => y ≠ x)

/-! ### Engine state (`class PubSubEngine`) -/

/-- Connections (`ws` handles) are identified by strings. -/
abbrev ConnId := String

/-- Per-topic state: subscriber map (clientId → ws), ring buffer of messages,
creation time. -/
structure Topic where
  subscribers : List (String × ConnId)
  messages : List Message
  createdAt : Nat
  deriving DecidableEq, Repr

/-- The mutable registries and configuration of `PubSubEngine`. -/
structure EngineState where
  topics : List (String × Topic)
  clientTopics : List (String × List String)
  subscriberQueues : List (String × SubscriberQueue)
  maxMessagesPerTopic : Nat
  maxQueueSize : Nat
  backpressurePolicy : Policy
  deriving DecidableEq, Repr

/-- Observable side effects of an engine operation. -/
inductive Effect : Type
  | close (ws : ConnId) (code : Nat) (reason : String)
  | send (ws : ConnId) (ev : OutEvent) (ok : Bool)
  | messageDropped (clientId : String) (topic : String) (dropped : Option OutEvent)
  deriving DecidableEq, Repr

/-- `createTopic(topicName)`. -/
def EngineState.createTopic (s : EngineState) (topicName : String) (now : Nat) :
    Bool × EngineState :=
  if alistHas s.topics topicName then
    (false, s)
  else
    let fresh : Topic := { subscribers := [], messages := [], createdAt := now }
    (true, { s with topics := alistSet s.topics topicName fresh })

/-- `deleteTopic(topicName)`: `false` when absent; otherwise closes every
subscriber connection, removes the topic, cleans up `clientTopics` entries
(dropping a client's entry when its set becomes empty), and returns `true`.
The `subscriberQueues` map is not touched. -/
def EngineState.deleteTopic (s : EngineState) (topicName : String) :
    Bool × EngineState × List Effect :=
  match alistGet s.topics topicName with
  | none => (false, s, [])
  | some topic =>
      let effs := topic.subscribers.map
        (fun p => Effect.close p.2 1000 "Topic deleted")
      let ct := (s.clientTopics.map
          (fun p => (p.1, ssetDelete p.2 topicName))).filter
        (fun p => p.2 ≠ [])
      (true, { s with topics := alistDelete s.topics topicName,
                      clientTopics := ct }, effs)

/-- The result object of `subscribe`/`publish`: success flag plus error code. -/
structure OpResult where
  success : Bool
  error : Option String
  deriving DecidableEq, Repr

/-- `sendToClient(ws, message)`: `true` iff the socket is open
(`readyState === 1`); openness is supplied by the transport as `openF`. -/
def sendToClient (openF : ConnId → Bool) (ws : ConnId) : Bool :=
  openF ws

/-- `subscribe(topicName, clientId, ws, lastN)`.  Creates the subscriber queue
lazily, registers the subscription, and replays the last `lastN` ring-buffer
entries by direct send (tagged `replay: true`). -/
def EngineState.subscribe (s : EngineState) (topicName clientId : String)
    (ws : ConnId) (lastN : Nat) (now : Nat) (openF : ConnId → Bool) :
    OpResult × EngineState × List Effect :=
  match alistGet s.topics topicName with
  | none => ({ success := false, error := some "TOPIC_NOT_FOUND" }, s, [])
  | some topic =>
      if alistHas topic.subscribers clientId then
        ({ success := false, error := some "ALREADY_SUBSCRIBED" }, s, [])
      else
        let queues :=
          if alistHas s.subscriberQueues clientId then s.subscriberQueues
          else alistSet s.subscriberQueues clientId
            (SubscriberQueue.mk0 clientId s.maxQueueSize s.backpressurePolicy)
        let topic' := { topic with
          subscribers := alistSet topic.subscribers clientId ws }
        let ct :=
          match alistGet s.clientTopics clientId with
          | none => alistSet s.clientTopics clientId (ssetAdd [] topicName)
          | some ts => alistSet s.clientTopics clientId (ssetAdd ts topicName)
        let effs :=
          if lastN > 0 ∧ topic.messages.length > 0 then
            (topic.messages.drop (topic.messages.length - lastN)).map
              (fun m => Effect.send ws
                { topic := topicName, message := m, ts := now, replay := true }
                (sendToClient openF ws))
          else []
        ({ success := true, error := none },
         { s with topics := alistSet s.topics topicName topic',
                  subscriberQueues := queues, clientTopics := ct }, effs)

/-- `unsubscribe(topicName, clientId)`: removes the subscription; when the
client's topic set becomes empty, drops its `clientTopics` entry and destroys
its subscriber queue. -/
def EngineState.unsubscribe (s : EngineState) (topicName clientId : String) :
    Bool × EngineState :=
  match alistGet s.topics topicName with
  | none => (false, s)
  | some topic =>
      if alistHas topic.subscribers clientId then
        let topic' := { topic with
          subscribers := alistDelete topic.subscribers clientId }
        let s1 := { s with topics := alistSet s.topics topicName topic' }
        match alistGet s1.clientTopics clientId with
        | none => (true, s1)
        | some ts =>
            let ts' := ssetDelete ts topicName
            if ts' = [] then
              (true, { s1 with
                clientTopics := alistDelete s1.clientTopics clientId,
                subscriberQueues := alistDelete s1.subscriberQueues clientId })
            else
              (true, { s1 with
                clientTopics := alistSet s1.clientTopics clientId ts' })
      else (false, s)

/-- Per-subscriber entry of `publish`'s `deliveryResults`. -/
structure DeliveryOutcome where
  clientId : String
  success : Bool
  action : Option AddAction
  reason : Option String
  error : Option String
  deriving DecidableEq, Repr

/-- The fan-out loop of `publish`: for each `[clientId, ws]` of the topic's
subscriber map, look up the subscriber queue (recording
`SUBSCRIBER_QUEUE_NOT_FOUND` when absent), `add` the event to it, emit a
`messageDropped` notification on eviction, and attempt an immediate send on
success.  Returns the updated queue map, the outcome list, and the effects. -/
def fanout (openF : ConnId → Bool) (topicName : String) (ev : OutEvent) :
    List (String × ConnId) → List (String × SubscriberQueue) →
    List (String × SubscriberQueue) × List DeliveryOutcome × List Effect
  | [], queues => (queues, [], [])
  | (clientId, ws) :: rest, queues =>
      match alistGet queues clientId with
      | none =>
          let r := fanout openF topicName ev rest queues
          (r.1, { clientId := clientId, success := false, action := none,
                  reason := none, error := some "SUBSCRIBER_QUEUE_NOT_FOUND" }
                 :: r.2.1, r.2.2)
      | some q =>
          let res := (q.add ev).1
          let q' := (q.add ev).2.1
          let closed := (q.add ev).2.2
          let queues' := alistSet queues clientId q'
          let stepEffs :=
            (if res.action = AddAction.droppedOldest then
              [Effect.messageDropped clientId topicName res.droppedMessage]
            else []) ++
            (if closed then [Effect.close ws 1013 "SLOW_CONSUMER"] else []) ++
            (if res.success then
              [Effect.send ws ev (sendToClient openF ws)] else [])
          let out : DeliveryOutcome :=
            if res.success then
              { clientId := clientId, success := sendToClient openF ws,
                action := some res.action, reason := none, error := none }
            else
              { clientId := clientId, success := false,
                action := some res.action, reason := res.reason, error := none }
          let r := fanout openF topicName ev rest queues'
          (r.1, out :: r.2.1, stepEffs ++ r.2.2)

/-- The aggregate result of `publish`. -/
structure PublishResult where
  success : Bool
  error : Option String
  subscribers : Nat
  deliveryResults : List DeliveryOutcome
  deriving DecidableEq, Repr

/-- Append to the ring buffer: push, then shift the oldest entry when the
length exceeds the capacity. -/
def pushRing (cap : Nat) (msgs : List Message) (m : Message) : List Message :=
  let l := msgs ++ [m]
  if l.length > cap then l.tail else l

/-- `if (!message.ts) message.ts = Date.now()`: assign a server timestamp when
the message has none. -/
def stampMsg (m : Message) (now : Nat) : Message :=
  { m with ts := some (m.ts.getD now) }

/-- The `messageToSend` object built by `publish` for fan-out. -/
def pubEvent (t : String) (m : Message) (now : Nat) : OutEvent :=
  { topic := t, message := stampMsg m now, ts := now, replay := false }

/-- `publish(topicName, message)`: topic must exist (`TOPIC_NOT_FOUND`), the
message must have truthy `id` and `payload` (`INVALID_MESSAGE`); assign a
server timestamp when absent, append to the ring buffer evicting the oldest
entry on overflow, then fan out to every subscriber's bounded queue. -/
def EngineState.publish (s : EngineState) (openF : ConnId → Bool)
    (topicName : String) (m : Message) (now : Nat) :
    PublishResult × EngineState × List Effect :=
  match alistGet s.topics topicName with
  | none =>
      ({ success := false, error := some "TOPIC_NOT_FOUND",
         subscribers := 0, deliveryResults := [] }, s, [])
  | some topic =>
      if ¬ (m.id.truthy ∧ m.payload.truthy) then
        ({ success := false, error := some "INVALID_MESSAGE",
           subscribers := 0, deliveryResults := [] }, s, [])
      else
        let stamped := stampMsg m now
        let msgs := pushRing s.maxMessagesPerTopic topic.messages stamped
        let ev := pubEvent topicName m now
        let r := fanout openF topicName ev topic.subscribers s.subscriberQueues
        let topic' := { topic with messages := msgs }
        ({ success := true, error := none,
           subscribers := topic.subscribers.length, deliveryResults := r.2.1 },
         { s with topics := alistSet s.topics topicName topic',
                  subscriberQueues := r.1 }, r.2.2)

/-- Fold `publish` over a list of messages (N successive publishes to the same
topic), discarding results and effects. -/
def EngineState.publishAll (s : EngineState) (openF : ConnId → Bool)
    (t : String) (ms : List Message) (now : Nat) : EngineState :=
  ms.foldl (fun s m => (s.publish openF t m now).2.1) s

/-- The read-only snapshot returned by `getTopic`. -/
structure TopicSnapshot where
  name : String
  subscribers : Nat
  messages : Nat
  createdAt : Nat
  deriving DecidableEq, Repr

/-- `getTopic(topicName)`. -/
def EngineState.getTopic (s : EngineState) (topicName : String) :
    Option TopicSnapshot :=
  (alistGet s.topics topicName).map (fun t =>
    { name := topicName, subscribers := t.subscribers.length,
      messages := t.messages.length, createdAt := t.createdAt })

/-- Fold `unsubscribe(t, clientId)` over a list of topic names (the loop bodies
of `disconnectClient` and of the WebSocket handler's `handleClose`). -/
def EngineState.unsubscribeAll (s : EngineState) (ts : List String)
    (clientId : String) : EngineState :=
  ts.foldl (fun s t => (s.unsubscribe t clientId).2) s

/-- `disconnectClient(clientId)`: unsubscribe from every tracked topic. -/
def EngineState.disconnectClient (s : EngineState) (clientId : String) :
    Bool × EngineState :=
  match alistGet s.clientTopics clientId with
  | none => (false, s)
  | some ts => (true, s.unsubscribeAll ts clientId)

/-! ### WebSocket handler (`class WebSocketHandler`) -/

/-- Per-connection record kept in the handler's `clients` map: the socket, the
set of subscribed topic names, and the client-declared identity (absent until
some protocol message carries a truthy `client_id`). -/
structure ClientInfo where
  ws : ConnId
  topics : List String
  clientProvidedId : Option String
  deriving DecidableEq, Repr

/-- The handler's state: connection id → per-connection record. -/
structure HandlerState where
  clients : List (String × ClientInfo)
  deriving DecidableEq, Repr

/-- A parsed inbound protocol message
(`{type, topic?, message?, client_id?, last_n?}`).  A `client_id` or `topic`
that is absent or the empty string is falsy in the source's checks
(`!client_id`, `!message.topic`), so both are modelled as `none`. -/
structure InMsg where
  type : String
  topic : Option String
  message : Option Message
  client_id : Option String
  last_n : Option Nat
  deriving DecidableEq, Repr

/-- Outbound handler responses plus forwarded engine effects. -/
inductive HEffect : Type
  | sendError (conn : ConnId) (code : String)
  | ack (conn : ConnId) (topic : String)
  | pong (conn : ConnId)
  | engine (e : Effect)
  deriving DecidableEq, Repr

/-- The identity used for pub/sub operations:
`client.clientProvidedId || clientId` (connection id as fallback). -/
def pubsubClientId (client : ClientInfo) (connId : String) : String :=
  client.clientProvidedId.getD connId

/-- `handleSubscribe(clientId, topic, lastN)`. -/
def handleSubscribe (hs : HandlerState) (es : EngineState)
    (openF : ConnId → Bool) (connId : String)
    (topic : Option String) (lastN : Nat) (now : Nat) :
    HandlerState × EngineState × List HEffect :=
  match topic with
  | none => (hs, es, [HEffect.sendError connId "BAD_REQUEST"])
  | some t =>
      match alistGet hs.clients connId with
      | none => (hs, es, [HEffect.sendError connId "UNAUTHORIZED"])
      | some client =>
          let cid := pubsubClientId client connId
          let r := es.subscribe t cid client.ws lastN now openF
          if r.1.success then
            let client' := { client with topics := ssetAdd client.topics t }
            ({ clients := alistSet hs.clients connId client' }, r.2.1,
             (r.2.2).map HEffect.engine ++ [HEffect.ack connId t])
          else
            (hs, es,
             [HEffect.sendError connId (r.1.error.getD "INTERNAL")])

/-- `handleUnsubscribe(clientId, topic)`. -/
def handleUnsubscribe (hs : HandlerState) (es : EngineState) (connId : String)
    (topic : Option String) : HandlerState × EngineState × List HEffect :=
  match topic with
  | none => (hs, es, [HEffect.sendError connId "BAD_REQUEST"])
  | some t =>
      match alistGet hs.clients connId with
      | none => (hs, es, [HEffect.sendError connId "UNAUTHORIZED"])
      | some client =>
          let cid := pubsubClientId client connId
          let r := es.unsubscribe t cid
          if r.1 then
            let client' := { client with topics := ssetDelete client.topics t }
            ({ clients := alistSet hs.clients connId client' }, r.2,
             [HEffect.ack connId t])
          else
            (hs, es, [HEffect.sendError connId "TOPIC_NOT_FOUND"])

/-- `handlePublish(clientId, topic, message)`. -/
def handlePublish (hs : HandlerState) (es : EngineState)
    (openF : ConnId → Bool) (connId : String) (topic : Option String)
    (msg : Option Message) (now : Nat) :
    HandlerState × EngineState × List HEffect :=
  match topic with
  | none => (hs, es, [HEffect.sendError connId "BAD_REQUEST"])
  | some t =>
      match msg with
      | none => (hs, es, [HEffect.sendError connId "BAD_REQUEST"])
      | some m =>
          if ¬ (m.id.truthy ∧ m.payload.truthy) then
            (hs, es, [HEffect.sendError connId "BAD_REQUEST"])
          else
            let r := es.publish openF t m now
            if r.1.success then
              (hs, r.2.1, (r.2.2).map HEffect.engine ++ [HEffect.ack connId t])
            else
              (hs, es,
               [HEffect.sendError connId (r.1.error.getD "INTERNAL")])

/-- `validateMessage(message)`: the message must carry a known truthy `type`
(`subscribe`, `unsubscribe`, `publish` or `ping`) and, for the first three, a
truthy string `topic`. -/
def validateMessage (msg : InMsg) : Bool :=
  (msg.type == "subscribe" || msg.type == "unsubscribe" ||
   msg.type == "publish" || msg.type == "ping") &&
  (!(msg.type == "subscribe" || msg.type == "unsubscribe" ||
     msg.type == "publish") || msg.topic.isSome)

/-- `handleMessage(clientId, data)` after JSON parsing: structural validation
(`validateMessage`) rejects with `BAD_REQUEST` first; then a truthy
`client_id` is required for `subscribe`/`unsubscribe`/`publish`; only then is
the supplied `client_id` stored on the connection record (overwriting any
previous one), before dispatching on `type`. -/
def handleMessage (hs : HandlerState) (es : EngineState)
    (openF : ConnId → Bool) (connId : String) (msg : InMsg) (now : Nat) :
    HandlerState × EngineState × List HEffect :=
  if ¬ validateMessage msg then
    (hs, es, [HEffect.sendError connId "BAD_REQUEST"])
  else if (msg.type = "subscribe" ∨ msg.type = "unsubscribe" ∨
      msg.type = "publish") ∧ msg.client_id = none then
    (hs, es, [HEffect.sendError connId "BAD_REQUEST"])
  else
    let hs1 : HandlerState :=
      match alistGet hs.clients connId, msg.client_id with
      | some client, some cid =>
          { clients := alistSet hs.clients connId
              { client with clientProvidedId := some cid } }
      | _, _ => hs
    if msg.type = "subscribe" then
      handleSubscribe hs1 es openF connId msg.topic (msg.last_n.getD 0) now
    else if msg.type = "unsubscribe" then
      handleUnsubscribe hs1 es connId msg.topic
    else if msg.type = "publish" then
      handlePublish hs1 es openF connId msg.topic msg.message now
    else if msg.type = "ping" then
      (hs1, es, [HEffect.pong connId])
    else
      (hs1, es, [HEffect.sendError connId "BAD_REQUEST"])

/-- `handleClose(clientId, code, reason)`: unsubscribe the bound identity from
every topic in the connection's topic set, then drop the connection record. -/
def handleClose (hs : HandlerState) (es : EngineState) (connId : String) :
    HandlerState × EngineState :=
  match alistGet hs.clients connId with
  | none => (hs, es)
  | some client =>
      let cid := pubsubClientId client connId
      let es' := es.unsubscribeAll client.topics cid
      ({ clients := alistDelete hs.clients connId }, es')

/-- The REST route `DELETE /topics/:name` (TopicRoutes.deleteTopic): 404 when
the topic is absent; otherwise snapshot the topic via `getTopic`, delete it,
and answer with `subscribers_disconnected`/`messages_lost` taken from the
pre-deletion snapshot. -/
def routeDeleteTopic (es : EngineState) (name : String) :
    Option (Nat × Nat) × EngineState × List Effect :=
  if ¬ alistHas es.topics name then (none, es, [])
  else
    match es.getTopic name with
    | none => (none, es, [])
    | some snap =>
        let r := es.deleteTopic name
        if r.1 then (some (snap.subscribers, snap.messages), r.2.1, r.2.2)
        else (none, es, [])

/-! ### Concrete data used by witnesses and counterexamples -/

/-- A concrete valid message (truthy id and payload). -/
def msgW (n : Nat) : Message :=
  { id := JsValue.vStr "id", payload := JsValue.vNum n, ts := some n }

/-- A concrete queued event. -/
def evW (n : Nat) : OutEvent :=
  { topic := "t", message := msgW n, ts := 0, replay := false }

/-- A concrete full drop-oldest queue of capacity 2. -/
def qFullW : SubscriberQueue :=
  { clientId := "a", maxSize := 2, policy := Policy.dropOldest,
    queue := [evW 1, evW 2], droppedCount := 0, totalProcessed := 2 }

/-- A concrete full disconnect-policy queue of capacity 2. -/
def qFullDiscW : SubscriberQueue :=
  { clientId := "a", maxSize := 2, policy := Policy.disconnect,
    queue := [evW 1, evW 2], droppedCount := 0, totalProcessed := 2 }

/-- A concrete fresh topic with no subscribers and no messages. -/
def topicW : Topic := { subscribers := [], messages := [], createdAt := 0 }

/-- A concrete engine state holding only the fresh topic `"t"`. -/
def engW : EngineState :=
  { topics := [("t", topicW)], clientTopics := [], subscriberQueues := [],
    maxMessagesPerTopic := 2, maxQueueSize := 2,
    backpressurePolicy := Policy.dropOldest }

/-- A concrete message whose `payload` field is present but falsy (`0`). -/
def msgFalsyW : Message :=
  { id := JsValue.vStr "m1", payload := JsValue.vNum 0, ts := none }

/-- A concrete topic with one subscriber `"a"` and two stored messages. -/
def topicSubW : Topic :=
  { subscribers := [("a", "w1")], messages := [msgW 1, msgW 2], createdAt := 0 }

/-- A concrete engine state with topic `"t"`, subscriber `"a"` and its queue. -/
def engSubW : EngineState :=
  { topics := [("t", topicSubW)], clientTopics := [("a", ["t"])],
    subscriberQueues := [("a", SubscriberQueue.mk0 "a" 2 Policy.dropOldest)],
    maxMessagesPerTopic := 2, maxQueueSize := 2,
    backpressurePolicy := Policy.dropOldest }

/-- A concrete per-connection record: connection bound to client `"a"`,
subscribed to topic `"t"`. -/
def clientW : ClientInfo :=
  { ws := "w1", topics := ["t"], clientProvidedId := some "a" }

/-- A concrete handler state holding only `clientW` under `"conn1"`. -/
def hsW : HandlerState := { clients := [("conn1", clientW)] }

/-- A concrete topic whose only subscriber `"a"` owns a full disconnect-policy
queue. -/
def topicDiscW : Topic :=
  { subscribers := [("a", "w1")], messages := [], createdAt := 0 }

/-- A concrete engine state under the `disconnect` backpressure policy with
subscriber `"a"` holding the full queue `qFullDiscW`. -/
def engDiscW : EngineState :=
  { topics := [("t", topicDiscW)], clientTopics := [("a", ["t"])],
    subscriberQueues := [("a", qFullDiscW)],
    maxMessagesPerTopic := 2, maxQueueSize := 2,
    backpressurePolicy := Policy.disconnect }

/-- A concrete handler state with one connection that has not yet declared a
client identity. -/
def hs0W : HandlerState :=
  { clients := [("conn1",
      { ws := "conn1", topics := [], clientProvidedId := none })] }

/-- A concrete engine state with two fresh topics. -/
def eng2W : EngineState :=
  { topics := [("t1", topicW), ("t2", topicW)], clientTopics := [],
    subscriberQueues := [], maxMessagesPerTopic := 2, maxQueueSize := 2,
    backpressurePolicy := Policy.dropOldest }

/-- A concrete inbound subscribe message carrying a client identity. -/
def subMsgW (t cid : String) : InMsg :=
  { type := "subscribe", topic := some t, message := none,
    client_id := some cid, last_n := none }

/-- First protocol message of the C7 run: subscribe to `"t1"` as `"alice"`. -/
def c7Step1 : HandlerState × EngineState × List HEffect :=
  handleMessage hs0W eng2W (fun _ => true) "conn1" (subMsgW "t1" "alice") 0

/-- Second protocol message of the C7 run: subscribe to `"t2"` as `"bob"` on
the same connection. -/
def c7Step2 : HandlerState × EngineState × List HEffect :=
  handleMessage c7Step1.1 c7Step1.2.1 (fun _ => true) "conn1"
    (subMsgW "t2" "bob") 0

/-! ### Helper lemmas -/

theorem alistGet_set_self {β : Type} (l : List (String × β)) (k : String)
    (v : β) : alistGet (alistSet l k v) k = some v := by
  induction l with
  | nil => simp [alistSet, alistGet]
  | cons p rest ih =>
      by_cases h : p.1 = k
      · simp [alistSet, alistGet, h]
      · simp [alistSet, alistGet, h, ih]

theorem alistGet_set_ne {β : Type} (l : List (String × β)) (k k' : String)
    (v : β) (h : k ≠ k') : alistGet (alistSet l k v) k' = alistGet l k' := by
  induction l with
  | nil => simp [alistSet, alistGet, h]
  | cons p rest ih =>
      by_cases hk : p.1 = k
      · simp [alistSet, alistGet, hk, h]
      · simp [alistSet, alistGet, hk, ih]

theorem alistGet_delete_ne {β : Type} (l : List (String × β)) (k k' : String)
    (h : k ≠ k') : alistGet (alistDelete l k) k' = alistGet l k' := by
  induction l with
  | nil => simp [alistDelete]
  | cons p rest ih =>
      by_cases hk : p.1 = k
      · simp [alistDelete, alistGet, hk, h]
      · simp [alistDelete, alistGet, hk, ih]

theorem alistGet_none_of_not_mem_keys {β : Type} (l : List (String × β))
    (k : String) (h : k ∉ l.map Prod.fst) : alistGet l k = none := by
  induction l with
  | nil => simp [alistGet]
  | cons p rest ih =>
      obtain ⟨a, v⟩ := p
      simp only [List.map_cons, List.mem_cons] at h
      push_neg at h
      have ha : ¬ (a = k) := fun he => h.1 he.symm
      simp only [alistGet, if_neg ha]
      exact ih h.2

theorem alistGet_delete_self {β : Type} (l : List (String × β)) (k : String)
    (hnd : (l.map Prod.fst).Nodup) :
    alistGet (alistDelete l k) k = none := by
  induction l with
  | nil => simp [alistDelete, alistGet]
  | cons p rest ih =>
      obtain ⟨a, v⟩ := p
      simp only [List.map_cons, List.nodup_cons] at hnd
      by_cases hk : a = k
      · subst hk
        simpa [alistDelete] using
          alistGet_none_of_not_mem_keys rest a hnd.1
      · simp only [alistDelete, if_neg hk, alistGet, if_neg hk]
        exact ih hnd.2

theorem mem_keys_of_alistGet_isSome {β : Type} (l : List (String × β))
    (k : String) (h : (alistGet l k).isSome) : k ∈ l.map Prod.fst := by
  by_contra hk
  rw [alistGet_none_of_not_mem_keys l k hk] at h
  simp at h

/-! ### Claim C1 — drop-oldest backpressure -/

/-- When the queue is strictly below capacity, `add` appends. -/
theorem SubscriberQueue.add_of_lt (q : SubscriberQueue) (m : OutEvent)
    (h : q.queue.length < q.maxSize) :
    q.add m =
      ({ success := true, action := .added, reason := none,
         droppedMessage := none, droppedCount := q.droppedCount },
       { q with queue := q.queue ++ [m],
                totalProcessed := q.totalProcessed + 1 }, false) := by
  unfold SubscriberQueue.add
  rw [if_neg (by omega)]

/-- Below capacity, a run of `add`s just appends all messages. -/
theorem SubscriberQueue.addAll_no_drop (ms : List OutEvent)
    (q : SubscriberQueue) (h : q.queue.length + ms.length ≤ q.maxSize) :
    q.addAll ms =
      { q with queue := q.queue ++ ms,
               totalProcessed := q.totalProcessed + ms.length } := by
  induction ms generalizing q with
  | nil => simp [SubscriberQueue.addAll]
  | cons m rest ih =>
      have hlt : q.queue.length < q.maxSize := by
        simp only [List.length_cons] at h; omega
      have step := q.add_of_lt m hlt
      simp only [SubscriberQueue.addAll, List.foldl_cons] at *
      rw [step]
      have hrest : (q.queue ++ [m]).length + rest.length ≤ q.maxSize := by
        simp only [List.length_append, List.length_cons, List.length_nil] at *
        omega
      have := ih { q with queue := q.queue ++ [m],
                          totalProcessed := q.totalProcessed + 1 } hrest
      simp only [SubscriberQueue.addAll] at this
      rw [this]
      simp only [List.append_assoc, List.singleton_append, List.length_cons,
        SubscriberQueue.mk.injEq, true_and, and_true]
      omega

/-- At (or beyond) capacity with policy `drop_oldest`, `add` evicts the head
and appends. -/
theorem SubscriberQueue.add_full_drop (q : SubscriberQueue) (m : OutEvent)
    (hp : q.policy = Policy.dropOldest) (h : q.queue.length ≥ q.maxSize) :
    q.add m =
      ({ success := true, action := .droppedOldest, reason := none,
         droppedMessage := q.queue.head?, droppedCount := q.droppedCount + 1 },
       { q with queue := q.queue.tail ++ [m],
                droppedCount := q.droppedCount + 1,
                totalProcessed := q.totalProcessed + 1 }, false) := by
  unfold SubscriberQueue.add
  rw [if_pos h, hp]

/-- At capacity with policy `disconnect`, `add` rejects the message, leaves
the queue untouched, and closes the socket. -/
theorem SubscriberQueue.add_full_disconnect (q : SubscriberQueue)
    (m : OutEvent) (hp : q.policy = Policy.disconnect)
    (h : q.queue.length ≥ q.maxSize) :
    q.add m =
      ({ success := false, action := .disconnected,
         reason := some "SLOW_CONSUMER", droppedMessage := none,
         droppedCount := q.droppedCount }, q, true) := by
  unfold SubscriberQueue.add
  rw [if_pos h, hp]

/-- C1: with policy `drop_oldest`, an `add` on a full queue (length = capacity
K) evicts the head, appends the new message at the tail, increments
`droppedCount`, and is reported as accepted (`success = true`, with the
eviction noted as the `dropped_oldest` action); consequently, starting from a
fresh queue of capacity K > 0, after K+1 `add`s with no intervening `getNext`
the queue holds exactly the most recent K messages in order and
`droppedCount = 1`. -/
theorem claim_C1_drop_oldest_backpressure
    (q : SubscriberQueue) (m : OutEvent) (c : String) (K : Nat)
    (ms : List OutEvent)
    (hp : q.policy = Policy.dropOldest)
    (hfull : q.queue.length = q.maxSize)
    (hK : 0 < K) (hms : ms.length = K + 1) :
    ((q.add m).1.success = true ∧
     (q.add m).1.action = AddAction.droppedOldest ∧
     (q.add m).1.droppedMessage = q.queue.head? ∧
     (q.add m).2.1.queue = q.queue.tail ++ [m] ∧
     (q.add m).2.1.droppedCount = q.droppedCount + 1) ∧
    ((SubscriberQueue.mk0 c K Policy.dropOldest).addAll ms).queue = ms.tail ∧
    ((SubscriberQueue.mk0 c K Policy.dropOldest).addAll ms).droppedCount
      = 1 := by
  have hadd := q.add_full_drop m hp (le_of_eq hfull.symm)
  refine ⟨by rw [hadd]; exact ⟨rfl, rfl, rfl, rfl, rfl⟩, ?_⟩
  have hne : ms ≠ [] := by
    intro h; rw [h] at hms; simp at hms
  have hsplit := List.dropLast_append_getLast hne
  have hlen : ms.dropLast.length = K := by
    rw [List.length_dropLast, hms]; rfl
  have hdlne : ms.dropLast ≠ [] := by
    intro h; rw [h] at hlen; simp at hlen; omega
  set q0 := SubscriberQueue.mk0 c K Policy.dropOldest with hq0
  have h1 : q0.addAll ms.dropLast =
      { q0 with queue := [] ++ ms.dropLast,
                totalProcessed := q0.totalProcessed + ms.dropLast.length } := by
    apply SubscriberQueue.addAll_no_drop
    simp [hq0, SubscriberQueue.mk0, hlen]
  have h2 : q0.addAll ms = ((q0.addAll ms.dropLast).add (ms.getLast hne)).2.1 := by
    conv_lhs => rw [← hsplit]
    simp [SubscriberQueue.addAll, List.foldl_append]
  have hq1full : (q0.addAll ms.dropLast).queue.length ≥
      (q0.addAll ms.dropLast).maxSize := by
    rw [h1]; simp [hq0, SubscriberQueue.mk0, hlen]
  have hq1pol : (q0.addAll ms.dropLast).policy = Policy.dropOldest := by
    rw [h1]; rfl
  have h3 := (q0.addAll ms.dropLast).add_full_drop (ms.getLast hne)
    hq1pol hq1full
  rw [h2, h3]
  have hq1queue : (q0.addAll ms.dropLast).queue = ms.dropLast := by
    rw [h1]; simp
  have hq1drop : (q0.addAll ms.dropLast).droppedCount = 0 := by
    rw [h1]; simp [hq0, SubscriberQueue.mk0]
  refine ⟨?_, by simp [hq1drop]⟩
  simp only [hq1queue]
  -- `ms.dropLast.tail ++ [ms.getLast hne] = ms.tail`
  conv_rhs => rw [← hsplit]
  obtain ⟨a, t, hat⟩ : ∃ a t, ms.dropLast = a :: t := by
    cases h : ms.dropLast with
    | nil => exact absurd h hdlne
    | cons a t => exact ⟨a, t, rfl⟩
  rw [hat]
  simp

/-- Witness for C1 at a concrete full queue of capacity 2 and a concrete run
of 3 adds. -/
theorem claim_C1_drop_oldest_backpressure_witness :
    (qFullW.policy = Policy.dropOldest ∧
     qFullW.queue.length = qFullW.maxSize ∧ 0 < 2 ∧
     ([evW 1, evW 2, evW 3] : List OutEvent).length = 2 + 1) ∧
    (((qFullW.add (evW 3)).1.success = true ∧
      (qFullW.add (evW 3)).1.action = AddAction.droppedOldest ∧
      (qFullW.add (evW 3)).1.droppedMessage = qFullW.queue.head? ∧
      (qFullW.add (evW 3)).2.1.queue = qFullW.queue.tail ++ [evW 3] ∧
      (qFullW.add (evW 3)).2.1.droppedCount = qFullW.droppedCount + 1) ∧
     ((SubscriberQueue.mk0 "a" 2 Policy.dropOldest).addAll
        [evW 1, evW 2, evW 3]).queue = ([evW 1, evW 2, evW 3] : List OutEvent).tail ∧
     ((SubscriberQueue.mk0 "a" 2 Policy.dropOldest).addAll
        [evW 1, evW 2, evW 3]).droppedCount = 1) :=
  ⟨⟨rfl, rfl, by decide, rfl⟩,
   claim_C1_drop_oldest_backpressure qFullW (evW 3) "a" 2 [evW 1, evW 2, evW 3]
     rfl rfl (by decide) rfl⟩

/-! ### Claim C3 — ring buffer bound -/

/-- Within the capacity bound, `pushRing` is append-then-drop-overflow. -/
theorem pushRing_eq_drop (K : Nat) (r : List Message) (m : Message)
    (h : r.length ≤ K) :
    pushRing K r m = (r ++ [m]).drop ((r ++ [m]).length - K) := by
  unfold pushRing
  by_cases hK : (r ++ [m]).length > K
  · rw [if_pos hK]
    have hd : (r ++ [m]).length - K = 1 := by
      simp only [List.length_append, List.length_cons, List.length_nil] at *
      omega
    rw [hd, List.drop_one]
  · rw [if_neg hK]
    have hd : (r ++ [m]).length - K = 0 := by omega
    rw [hd, List.drop_zero]

/-- `pushRing` maintains the capacity bound. -/
theorem pushRing_length_le (K : Nat) (r : List Message) (m : Message)
    (h : r.length ≤ K) : (pushRing K r m).length ≤ K := by
  rw [pushRing_eq_drop K r m h, List.length_drop]
  omega

/-- Folding `pushRing` keeps exactly the most recent `K` entries. -/
theorem foldl_pushRing (K : Nat) (ms : List Message) :
    ∀ r : List Message, r.length ≤ K →
      ms.foldl (pushRing K) r = (r ++ ms).drop ((r ++ ms).length - K) := by
  induction ms with
  | nil =>
      intro r h
      have hd : (r ++ []).length - K = 0 := by simp; omega
      simp only [List.foldl_nil, List.append_nil] at *
      rw [hd, List.drop_zero]
  | cons m rest ih =>
      intro r h
      simp only [List.foldl_cons]
      rw [ih (pushRing K r m) (pushRing_length_le K r m h),
        pushRing_eq_drop K r m h]
      by_cases hc : r.length + 1 ≤ K
      · have hd : (r ++ [m]).length - K = 0 := by
          simp only [List.length_append, List.length_cons, List.length_nil]
          omega
        rw [hd, List.drop_zero]
        have he : (r ++ [m]) ++ rest = r ++ m :: rest := by simp
        rw [he]
      · have hrK : r.length = K := by omega
        have hd : (r ++ [m]).length - K = 1 := by
          simp only [List.length_append, List.length_cons, List.length_nil]
          omega
        rw [hd]
        have hlen : ((r ++ [m]).drop 1 ++ rest).length - K = rest.length := by
          simp only [List.length_append, List.length_drop, List.length_cons,
            List.length_nil]
          omega
        rw [hlen,
          ← @List.drop_append_of_le_length _ (r ++ [m]) rest 1
            (show 1 ≤ (r ++ [m]).length by simp),
          List.drop_drop]
        have he : (r ++ [m]) ++ rest = r ++ m :: rest := by simp
        rw [he]
        have hD : (r ++ m :: rest).length - K = 1 + rest.length := by
          simp only [List.length_append, List.length_cons]
          omega
        rw [hD]

/-- A successful `publish` rewrites the topic's ring buffer by `pushRing` with
the stamped message and leaves the subscriber set, the other topics, and the
configuration untouched. -/
theorem publish_ring_step (s : EngineState) (openF : ConnId → Bool)
    (t : String) (T : Topic) (m : Message) (now : Nat)
    (ht : alistGet s.topics t = some T)
    (hid : m.id.truthy) (hpl : m.payload.truthy) :
    alistGet ((s.publish openF t m now).2.1).topics t
      = some { T with
               messages := pushRing s.maxMessagesPerTopic T.messages
                 (stampMsg m now) } ∧
    ((s.publish openF t m now).2.1).maxMessagesPerTopic
      = s.maxMessagesPerTopic ∧
    (s.publish openF t m now).1.success = true := by
  unfold EngineState.publish
  rw [ht]
  dsimp only
  rw [if_neg (by simp [hid, hpl])]
  exact ⟨alistGet_set_self _ _ _, rfl, rfl⟩

/-- Iterated valid publishes evolve the ring buffer by folding `pushRing` over
the stamped messages. -/
theorem publishAll_ring (openF : ConnId → Bool) (t : String) (now : Nat)
    (ms : List Message) :
    ∀ (s : EngineState) (T : Topic), alistGet s.topics t = some T →
      (∀ x ∈ ms, x.id.truthy ∧ x.payload.truthy) →
      alistGet ((s.publishAll openF t ms now)).topics t
        = some { T with
                 messages := (ms.map (fun x => stampMsg x now)).foldl
                   (pushRing s.maxMessagesPerTopic) T.messages } ∧
      ((s.publishAll openF t ms now)).maxMessagesPerTopic
        = s.maxMessagesPerTopic := by
  induction ms with
  | nil =>
      intro s T ht _
      simpa [EngineState.publishAll] using ht
  | cons m rest ih =>
      intro s T ht hv
      have hm := hv m (by simp)
      obtain ⟨h1, h2, _⟩ := publish_ring_step s openF t T m now ht hm.1 hm.2
      have := ih ((s.publish openF t m now).2.1)
        { T with
          messages := pushRing s.maxMessagesPerTopic T.messages
            (stampMsg m now) }
        h1 (fun x hx => hv x (by simp [hx]))
      simp only [EngineState.publishAll, List.foldl_cons] at *
      rw [this.1, this.2, h2]
      simp [h2]

/-- C3: the ring buffer length never exceeds `maxMessagesPerTopic` and
overflow evicts the oldest entry first: one successful publish turns the ring
into `pushRing` of the old one (staying within the bound), and N successful
publishes to a fresh topic leave exactly the min(N, K) most recently published
messages, oldest-first. -/
theorem claim_C3_ring_buffer_bound
    (s : EngineState) (openF : ConnId → Bool) (t : String) (T : Topic)
    (m : Message) (now : Nat) (ms : List Message) (s₀ : EngineState)
    (T₀ : Topic)
    (ht : alistGet s.topics t = some T)
    (hid : m.id.truthy) (hpl : m.payload.truthy)
    (hb : T.messages.length ≤ s.maxMessagesPerTopic)
    (h0 : alistGet s₀.topics t = some T₀) (h0e : T₀.messages = [])
    (hms : ∀ x ∈ ms, x.id.truthy ∧ x.payload.truthy) :
    (∃ T', alistGet ((s.publish openF t m now).2.1).topics t = some T' ∧
       T'.messages = pushRing s.maxMessagesPerTopic T.messages (stampMsg m now) ∧
       T'.messages.length ≤ s.maxMessagesPerTopic) ∧
    (∃ T', alistGet (s₀.publishAll openF t ms now).topics t = some T' ∧
       T'.messages = (ms.map (fun x => stampMsg x now)).drop
         (ms.length - s₀.maxMessagesPerTopic) ∧
       T'.messages.length = min ms.length s₀.maxMessagesPerTopic) := by
  constructor
  · obtain ⟨h1, _, _⟩ := publish_ring_step s openF t T m now ht hid hpl
    exact ⟨_, h1, rfl, pushRing_length_le _ _ _ hb⟩
  · obtain ⟨h1, _⟩ := publishAll_ring openF t now ms s₀ T₀ h0 hms
    refine ⟨_, h1, ?_, ?_⟩
    · simp only [h0e]
      rw [foldl_pushRing s₀.maxMessagesPerTopic _ [] (by simp)]
      simp
    · simp only [h0e]
      rw [foldl_pushRing s₀.maxMessagesPerTopic _ [] (by simp)]
      simp only [List.nil_append, List.length_drop, List.length_map]
      omega

/-- Witness for C3 at a concrete topic of capacity 2 and three publishes. -/
theorem claim_C3_ring_buffer_bound_witness :
    (alistGet engW.topics "t" = some topicW ∧
     (msgW 1).id.truthy ∧ (msgW 1).payload.truthy ∧
     topicW.messages.length ≤ engW.maxMessagesPerTopic ∧
     topicW.messages = ([] : List Message) ∧
     (∀ x ∈ [msgW 1, msgW 2, msgW 3], x.id.truthy ∧ x.payload.truthy)) ∧
    ((∃ T', alistGet ((engW.publish (fun _ => true) "t" (msgW 1) 7).2.1).topics
          "t" = some T' ∧
        T'.messages = pushRing engW.maxMessagesPerTopic topicW.messages
          (stampMsg (msgW 1) 7) ∧
        T'.messages.length ≤ engW.maxMessagesPerTopic) ∧
     (∃ T', alistGet (engW.publishAll (fun _ => true) "t"
          [msgW 1, msgW 2, msgW 3] 7).topics "t" = some T' ∧
        T'.messages = (([msgW 1, msgW 2, msgW 3] : List Message).map
            (fun x => stampMsg x 7)).drop
          (([msgW 1, msgW 2, msgW 3] : List Message).length -
            engW.maxMessagesPerTopic) ∧
        T'.messages.length = min ([msgW 1, msgW 2, msgW 3] : List Message).length
          engW.maxMessagesPerTopic)) :=
  ⟨⟨rfl, by decide, by decide, by decide, rfl, by decide⟩,
   claim_C3_ring_buffer_bound engW (fun _ => true) "t" topicW (msgW 1) 7
     [msgW 1, msgW 2, msgW 3] engW topicW rfl (by decide) (by decide)
     (by decide) rfl rfl (by decide)⟩

/-! ### Claim C10 — falsy `id`/`payload` fields are rejected -/

/-- C10: `publish` rejects with `INVALID_MESSAGE` any message whose `id` or
`payload` field is falsy in the JavaScript sense (for instance payload `0`,
`""`, `false` or `null`), even when the field is present, and mutates no
state. -/
theorem claim_C10_falsy_fields_rejected
    (s : EngineState) (openF : ConnId → Bool) (t : String) (T : Topic)
    (m : Message) (now : Nat)
    (ht : alistGet s.topics t = some T)
    (hf : m.id.truthy = false ∨ m.payload.truthy = false) :
    (s.publish openF t m now).1.success = false ∧
    (s.publish openF t m now).1.error = some "INVALID_MESSAGE" ∧
    (s.publish openF t m now).2.1 = s ∧
    (s.publish openF t m now).2.2 = [] := by
  unfold EngineState.publish
  rw [ht]
  dsimp only
  rw [if_pos (by rcases hf with h | h <;> simp [h])]
  exact ⟨rfl, rfl, rfl, rfl⟩

/-- Witness for C10: payload `0` is present but falsy, so the publish is
rejected although the message carries both an `id` and a `payload` field. -/
theorem claim_C10_falsy_fields_rejected_witness :
    (alistGet engW.topics "t" = some topicW ∧
     msgFalsyW.payload.truthy = false ∧ msgFalsyW.id.truthy = true) ∧
    ((engW.publish (fun _ => true) "t" msgFalsyW 0).1.success = false ∧
     (engW.publish (fun _ => true) "t" msgFalsyW 0).1.error
       = some "INVALID_MESSAGE" ∧
     (engW.publish (fun _ => true) "t" msgFalsyW 0).2.1 = engW ∧
     (engW.publish (fun _ => true) "t" msgFalsyW 0).2.2 = []) :=
  ⟨⟨rfl, by decide, by decide⟩,
   claim_C10_falsy_fields_rejected engW (fun _ => true) "t" topicW msgFalsyW 0
     rfl (Or.inr (by decide))⟩

/-! ### Claim C9 — failed operations leave the registry unchanged -/

/-- C9: `publish` returning `TOPIC_NOT_FOUND` or `INVALID_MESSAGE`,
`createTopic` returning false on an existing topic, `subscribe` returning
`TOPIC_NOT_FOUND` or `ALREADY_SUBSCRIBED`, and `unsubscribe` of a pair that
is not currently subscribed all return the state unchanged and perform no
effects. -/
theorem claim_C9_errors_leave_state_unchanged
    (s : EngineState) (openF : ConnId → Bool) (now lastN : Nat)
    (tAbs tEx : String) (TEx : Topic) (mBad mOk : Message)
    (cSub cNo : String) (wSub ws : ConnId)
    (hAbs : alistGet s.topics tAbs = none)
    (hEx : alistGet s.topics tEx = some TEx)
    (hBad : mBad.id.truthy = false ∨ mBad.payload.truthy = false)
    (hSub : alistGet TEx.subscribers cSub = some wSub)
    (hNo : alistGet TEx.subscribers cNo = none) :
    ((s.publish openF tAbs mOk now).1.error = some "TOPIC_NOT_FOUND" ∧
     (s.publish openF tAbs mOk now).2.1 = s ∧
     (s.publish openF tAbs mOk now).2.2 = []) ∧
    ((s.publish openF tEx mBad now).1.error = some "INVALID_MESSAGE" ∧
     (s.publish openF tEx mBad now).2.1 = s ∧
     (s.publish openF tEx mBad now).2.2 = []) ∧
    (s.createTopic tEx now = (false, s)) ∧
    ((s.subscribe tAbs cNo ws lastN now openF).1.error
       = some "TOPIC_NOT_FOUND" ∧
     (s.subscribe tAbs cNo ws lastN now openF).2.1 = s ∧
     (s.subscribe tAbs cNo ws lastN now openF).2.2 = []) ∧
    ((s.subscribe tEx cSub ws lastN now openF).1.error
       = some "ALREADY_SUBSCRIBED" ∧
     (s.subscribe tEx cSub ws lastN now openF).2.1 = s ∧
     (s.subscribe tEx cSub ws lastN now openF).2.2 = []) ∧
    (s.unsubscribe tAbs cNo = (false, s)) ∧
    (s.unsubscribe tEx cNo = (false, s)) := by
  refine ⟨?_, ?_, ?_, ?_, ?_, ?_, ?_⟩
  · unfold EngineState.publish
    rw [hAbs]
    exact ⟨rfl, rfl, rfl⟩
  · unfold EngineState.publish
    rw [hEx]
    dsimp only
    rw [if_pos (by rcases hBad with h | h <;> simp [h])]
    exact ⟨rfl, rfl, rfl⟩
  · unfold EngineState.createTopic
    rw [if_pos (show alistHas s.topics tEx = true by simp [alistHas, hEx])]
  · unfold EngineState.subscribe
    rw [hAbs]
    exact ⟨rfl, rfl, rfl⟩
  · unfold EngineState.subscribe
    rw [hEx]
    dsimp only
    rw [if_pos (show alistHas TEx.subscribers cSub = true by
      simp [alistHas, hSub])]
    exact ⟨rfl, rfl, rfl⟩
  · unfold EngineState.unsubscribe
    rw [hAbs]
  · unfold EngineState.unsubscribe
    rw [hEx]
    dsimp only
    rw [if_neg (by simp [alistHas, hNo])]

/-- Witness for C9 at a concrete state: topic `"t"` exists with subscriber
`"a"`, topic `"nope"` does not, client `"b"` is not subscribed. -/
theorem claim_C9_errors_leave_state_unchanged_witness :
    (alistGet engSubW.topics "nope" = none ∧
     alistGet engSubW.topics "t" = some topicSubW ∧
     msgFalsyW.payload.truthy = false ∧
     alistGet topicSubW.subscribers "a" = some "w1" ∧
     alistGet topicSubW.subscribers "b" = none) ∧
    (((engSubW.publish (fun _ => true) "nope" (msgW 1) 0).1.error
        = some "TOPIC_NOT_FOUND" ∧
      (engSubW.publish (fun _ => true) "nope" (msgW 1) 0).2.1 = engSubW ∧
      (engSubW.publish (fun _ => true) "nope" (msgW 1) 0).2.2 = []) ∧
     ((engSubW.publish (fun _ => true) "t" msgFalsyW 0).1.error
        = some "INVALID_MESSAGE" ∧
      (engSubW.publish (fun _ => true) "t" msgFalsyW 0).2.1 = engSubW ∧
      (engSubW.publish (fun _ => true) "t" msgFalsyW 0).2.2 = []) ∧
     (engSubW.createTopic "t" 0 = (false, engSubW)) ∧
     ((engSubW.subscribe "nope" "b" "w2" 0 0 (fun _ => true)).1.error
        = some "TOPIC_NOT_FOUND" ∧
      (engSubW.subscribe "nope" "b" "w2" 0 0 (fun _ => true)).2.1 = engSubW ∧
      (engSubW.subscribe "nope" "b" "w2" 0 0 (fun _ => true)).2.2 = []) ∧
     ((engSubW.subscribe "t" "a" "w2" 0 0 (fun _ => true)).1.error
        = some "ALREADY_SUBSCRIBED" ∧
      (engSubW.subscribe "t" "a" "w2" 0 0 (fun _ => true)).2.1 = engSubW ∧
      (engSubW.subscribe "t" "a" "w2" 0 0 (fun _ => true)).2.2 = []) ∧
     (engSubW.unsubscribe "nope" "b" = (false, engSubW)) ∧
     (engSubW.unsubscribe "t" "b" = (false, engSubW))) :=
  ⟨⟨rfl, rfl, by decide, rfl, rfl⟩,
   claim_C9_errors_leave_state_unchanged engSubW (fun _ => true) 0 0
     "nope" "t" topicSubW msgFalsyW (msgW 1) "a" "b" "w1" "w2"
     rfl rfl (Or.inr (by decide)) rfl rfl⟩

/-! ### Claim C5 — replay bypasses the bounded queue -/

/-- C5: a successful subscribe with `replayCount > 0` synchronously sends
exactly the last `min(replayCount, ring length)` ring-buffer entries to that
connection, in original publish order, each tagged `replay = true`, as direct
sends; the subscriber-queue map is untouched except for the lazy creation of
an empty queue, so no replayed message is enqueued and no `droppedCount` or
`totalProcessed` changes. -/
theorem claim_C5_replay_bypasses_queue
    (s : EngineState) (openF : ConnId → Bool) (t c : String) (ws : ConnId)
    (lastN now : Nat) (T : Topic)
    (ht : alistGet s.topics t = some T)
    (hnew : alistHas T.subscribers c = false)
    (hn : 0 < lastN) :
    (s.subscribe t c ws lastN now openF).1.success = true ∧
    (s.subscribe t c ws lastN now openF).2.2 =
      (T.messages.drop (T.messages.length - lastN)).map
        (fun m => Effect.send ws
          { topic := t, message := m, ts := now, replay := true }
          (sendToClient openF ws)) ∧
    (T.messages.drop (T.messages.length - lastN)).length
      = min lastN T.messages.length ∧
    (s.subscribe t c ws lastN now openF).2.1.subscriberQueues =
      (if alistHas s.subscriberQueues c then s.subscriberQueues
       else alistSet s.subscriberQueues c
         (SubscriberQueue.mk0 c s.maxQueueSize s.backpressurePolicy)) := by
  unfold EngineState.subscribe
  rw [ht]
  dsimp only
  rw [if_neg (show ¬ (alistHas T.subscribers c = true) by simp [hnew])]
  dsimp only
  refine ⟨rfl, ?_, ?_, rfl⟩
  · by_cases hl : 0 < T.messages.length
    · rw [if_pos (show lastN > 0 ∧ T.messages.length > 0 from ⟨hn, hl⟩)]
    · have hnil : T.messages = [] := List.length_eq_zero.mp (by omega)
      simp [hnil]
  · rw [List.length_drop]
    omega

/-- Witness for C5: client `"b"` subscribes to `"t"` with `last_n = 1` while
the ring holds two messages; exactly the newer one is sent, tagged as a
replay. -/
theorem claim_C5_replay_bypasses_queue_witness :
    (alistGet engSubW.topics "t" = some topicSubW ∧
     alistHas topicSubW.subscribers "b" = false ∧ 0 < 1) ∧
    ((engSubW.subscribe "t" "b" "w2" 1 5 (fun _ => true)).1.success = true ∧
     (engSubW.subscribe "t" "b" "w2" 1 5 (fun _ => true)).2.2 =
       (topicSubW.messages.drop (topicSubW.messages.length - 1)).map
         (fun m => Effect.send "w2"
           { topic := "t", message := m, ts := 5, replay := true }
           (sendToClient (fun _ => true) "w2")) ∧
     (topicSubW.messages.drop (topicSubW.messages.length - 1)).length
       = min 1 topicSubW.messages.length ∧
     (engSubW.subscribe "t" "b" "w2" 1 5 (fun _ => true)).2.1.subscriberQueues =
       (if alistHas engSubW.subscriberQueues "b" then engSubW.subscriberQueues
        else alistSet engSubW.subscriberQueues "b"
          (SubscriberQueue.mk0 "b" engSubW.maxQueueSize
            engSubW.backpressurePolicy))) :=
  ⟨⟨rfl, by decide, by decide⟩,
   claim_C5_replay_bypasses_queue engSubW (fun _ => true) "t" "b" "w2" 1 5
     topicSubW rfl (by decide) (by decide)⟩

/-! ### Claim C2 — fan-out, exactly-once enqueue, topic isolation -/

/-- Fan-out never touches the queue of a client outside the subscriber set. -/
theorem fanout_queues_not_subscriber (openF : ConnId → Bool) (t : String)
    (ev : OutEvent) (subs : List (String × ConnId)) (c : String) :
    ∀ queues, c ∉ subs.map Prod.fst →
      alistGet (fanout openF t ev subs queues).1 c = alistGet queues c := by
  induction subs with
  | nil => intro queues _; rfl
  | cons p rest ih =>
      intro queues hc
      obtain ⟨c0, w0⟩ := p
      simp only [List.map_cons, List.mem_cons] at hc
      push_neg at hc
      cases hq : alistGet queues c0 with
      | none =>
          simp only [fanout, hq]
          exact ih queues hc.2
      | some q =>
          simp only [fanout, hq]
          rw [ih _ hc.2, alistGet_set_ne _ _ _ _ (fun he => hc.1 he.symm)]

/-- Fan-out updates each subscriber's queue by exactly one `add` of the
event. -/
theorem fanout_queues_subscriber (openF : ConnId → Bool) (t : String)
    (ev : OutEvent) (subs : List (String × ConnId)) :
    ∀ (queues : List (String × SubscriberQueue)) (c : String) (w : ConnId)
      (q : SubscriberQueue), (subs.map Prod.fst).Nodup →
      alistGet subs c = some w → alistGet queues c = some q →
      alistGet (fanout openF t ev subs queues).1 c = some (q.add ev).2.1 := by
  induction subs with
  | nil =>
      intro queues c w q _ hmem _
      simp [alistGet] at hmem
  | cons p rest ih =>
      intro queues c w q hnd hmem hq
      obtain ⟨c0, w0⟩ := p
      simp only [List.map_cons, List.nodup_cons] at hnd
      by_cases hc : c0 = c
      · subst hc
        simp only [fanout, hq]
        rw [fanout_queues_not_subscriber openF t ev rest c0 _ hnd.1,
          alistGet_set_self]
      · have hmem' : alistGet rest c = some w := by
          simpa [alistGet, hc] using hmem
        cases hq0 : alistGet queues c0 with
        | none =>
            simp only [fanout, hq0]
            exact ih queues c w q hnd.2 hmem' hq
        | some q0 =>
            simp only [fanout, hq0]
            exact ih _ c w q hnd.2 hmem'
              (by rw [alistGet_set_ne _ _ _ _ hc]; exact hq)

/-- Under `drop_oldest` the `add` always appends the event exactly once at the
tail, evicting the head only when full. -/
theorem SubscriberQueue.add_dropOldest_queue (q : SubscriberQueue)
    (ev : OutEvent) (hp : q.policy = Policy.dropOldest) :
    (q.add ev).2.1.queue =
      (if q.maxSize ≤ q.queue.length then q.queue.tail else q.queue)
        ++ [ev] := by
  by_cases h : q.queue.length ≥ q.maxSize
  · rw [q.add_full_drop ev hp h, if_pos h]
  · rw [q.add_of_lt ev (by omega), if_neg (by omega)]

/-- Whatever `add` evicts was already in the queue (an older message). -/
theorem SubscriberQueue.add_dropped_mem (q : SubscriberQueue) (ev : OutEvent)
    (d : OutEvent) (hd : (q.add ev).1.droppedMessage = some d) :
    d ∈ q.queue := by
  unfold SubscriberQueue.add at hd
  by_cases h : q.queue.length ≥ q.maxSize
  · rw [if_pos h] at hd
    cases hp : q.policy with
    | disconnect => rw [hp] at hd; simp at hd
    | dropOldest =>
        rw [hp] at hd
        simp only at hd
        cases hq : q.queue with
        | nil => rw [hq] at hd; simp at hd
        | cons a l =>
            rw [hq] at hd
            simp only [List.head?_cons, Option.some.injEq] at hd
            simp [hd]
  · rw [if_neg h] at hd
    simp at hd

/-- A successful publish leaves exactly the fan-out queues and only rewrites
the published topic. -/
theorem publish_queues_eq (s : EngineState) (openF : ConnId → Bool)
    (t : String) (T : Topic) (m : Message) (now : Nat)
    (ht : alistGet s.topics t = some T)
    (hid : m.id.truthy) (hpl : m.payload.truthy) :
    ((s.publish openF t m now).2.1).subscriberQueues
      = (fanout openF t (pubEvent t m now) T.subscribers
          s.subscriberQueues).1 ∧
    (∀ t', t' ≠ t → alistGet ((s.publish openF t m now).2.1).topics t'
      = alistGet s.topics t') := by
  unfold EngineState.publish
  rw [ht]
  dsimp only
  rw [if_neg (by simp [hid, hpl])]
  exact ⟨rfl, fun t' hne => alistGet_set_ne _ _ _ _ (Ne.symm hne)⟩

/-- C2 (amended): a valid publish enqueues the event exactly once, via one
`add`, into the queue of every subscriber of the topic — under `drop_oldest`
the add always appends it once at the tail, and anything evicted is an older
message already in the queue — while the queue of every client outside the
subscriber set, and every other topic, are untouched.  (As stated the claim
fails for a full `disconnect`-policy queue, which rejects the message:
`claim_C2_counterexample`.) -/
theorem claim_C2_fanout_isolation_amended
    (s : EngineState) (openF : ConnId → Bool) (t : String) (T : Topic)
    (m : Message) (now : Nat)
    (ht : alistGet s.topics t = some T)
    (hid : m.id.truthy) (hpl : m.payload.truthy)
    (hnd : (T.subscribers.map Prod.fst).Nodup) :
    (∀ c, c ∉ T.subscribers.map Prod.fst →
       alistGet ((s.publish openF t m now).2.1).subscriberQueues c
         = alistGet s.subscriberQueues c) ∧
    (∀ c w q, alistGet T.subscribers c = some w →
       alistGet s.subscriberQueues c = some q →
       alistGet ((s.publish openF t m now).2.1).subscriberQueues c
         = some (q.add (pubEvent t m now)).2.1 ∧
       (q.policy = Policy.dropOldest →
         (q.add (pubEvent t m now)).2.1.queue
           = (if q.maxSize ≤ q.queue.length then q.queue.tail else q.queue)
             ++ [pubEvent t m now]) ∧
       (∀ d, (q.add (pubEvent t m now)).1.droppedMessage = some d →
          d ∈ q.queue)) ∧
    (∀ t', t' ≠ t →
       alistGet ((s.publish openF t m now).2.1).topics t'
         = alistGet s.topics t') := by
  obtain ⟨hqs, hts⟩ := publish_queues_eq s openF t T m now ht hid hpl
  refine ⟨?_, ?_, hts⟩
  · intro c hc
    rw [hqs]
    exact fanout_queues_not_subscriber openF t (pubEvent t m now)
      T.subscribers c s.subscriberQueues hc
  · intro c w q hw hq
    refine ⟨?_, fun hp => q.add_dropOldest_queue (pubEvent t m now) hp,
      fun d hd => q.add_dropped_mem (pubEvent t m now) d hd⟩
    rw [hqs]
    exact fanout_queues_subscriber openF t (pubEvent t m now) T.subscribers
      s.subscriberQueues c w q hnd hw hq

/-- Counterexample to C2 as stated: client `"a"` is in the topic's subscriber
set, yet the publish does not enqueue the message into its full
`disconnect`-policy queue — the queue is unchanged and does not contain the
event. -/
theorem claim_C2_counterexample :
    alistGet topicDiscW.subscribers "a" = some "w1" ∧
    alistGet ((engDiscW.publish (fun _ => true) "t" (msgW 3) 9).2.1
      ).subscriberQueues "a" = some qFullDiscW ∧
    pubEvent "t" (msgW 3) 9 ∉ qFullDiscW.queue := by
  decide

/-- Witness for the amended C2 at a concrete one-subscriber state. -/
theorem claim_C2_fanout_isolation_amended_witness :
    (alistGet engSubW.topics "t" = some topicSubW ∧
     (msgW 3).id.truthy ∧ (msgW 3).payload.truthy ∧
     (topicSubW.subscribers.map Prod.fst).Nodup) ∧
    ((∀ c, c ∉ topicSubW.subscribers.map Prod.fst →
        alistGet ((engSubW.publish (fun _ => true) "t" (msgW 3) 9).2.1
          ).subscriberQueues c = alistGet engSubW.subscriberQueues c) ∧
     (∀ c w q, alistGet topicSubW.subscribers c = some w →
        alistGet engSubW.subscriberQueues c = some q →
        alistGet ((engSubW.publish (fun _ => true) "t" (msgW 3) 9).2.1
          ).subscriberQueues c = some (q.add (pubEvent "t" (msgW 3) 9)).2.1 ∧
        (q.policy = Policy.dropOldest →
          (q.add (pubEvent "t" (msgW 3) 9)).2.1.queue
            = (if q.maxSize ≤ q.queue.length then q.queue.tail else q.queue)
              ++ [pubEvent "t" (msgW 3) 9]) ∧
        (∀ d, (q.add (pubEvent "t" (msgW 3) 9)).1.droppedMessage = some d →
           d ∈ q.queue)) ∧
     (∀ t', t' ≠ "t" →
        alistGet ((engSubW.publish (fun _ => true) "t" (msgW 3) 9).2.1).topics
          t' = alistGet engSubW.topics t')) :=
  ⟨⟨rfl, by decide, by decide, by decide⟩,
   claim_C2_fanout_isolation_amended engSubW (fun _ => true) "t" topicSubW
     (msgW 3) 9 rfl (by decide) (by decide) (by decide)⟩

/-! ### More association-list lemmas (for the teardown proofs) -/

theorem alistGet_mem {β : Type} (l : List (String × β)) (k : String) (v : β)
    (h : alistGet l k = some v) : (k, v) ∈ l := by
  induction l with
  | nil => simp [alistGet] at h
  | cons p rest ih =>
      obtain ⟨a, b⟩ := p
      by_cases ha : a = k
      · subst ha
        have hred : alistGet ((a, b) :: rest) a = some b := by
          simp [alistGet]
        rw [hred] at h
        injection h with h
        simp [h]
      · simp only [alistGet, if_neg ha] at h
        exact List.mem_cons_of_mem _ (ih h)

theorem isSome_of_mem_keys {β : Type} (l : List (String × β)) (k : String)
    (h : k ∈ l.map Prod.fst) : (alistGet l k).isSome := by
  induction l with
  | nil => simp at h
  | cons p rest ih =>
      obtain ⟨a, b⟩ := p
      by_cases ha : a = k
      · simp [alistGet, ha]
      · simp only [List.map_cons, List.mem_cons] at h
        rcases h with h | h
        · exact absurd h.symm ha
        · simp only [alistGet, if_neg ha]
          exact ih h

theorem keys_alistSet_of_mem {β : Type} (l : List (String × β)) (k : String)
    (v : β) (h : k ∈ l.map Prod.fst) :
    (alistSet l k v).map Prod.fst = l.map Prod.fst := by
  induction l with
  | nil => simp at h
  | cons p rest ih =>
      obtain ⟨a, b⟩ := p
      by_cases ha : a = k
      · simp [alistSet, ha]
      · simp only [List.map_cons, List.mem_cons] at h
        rcases h with h | h
        · exact absurd h.symm ha
        · simp [alistSet, ha, ih h]

theorem mem_alistSet_cases {β : Type} (l : List (String × β)) (k : String)
    (v : β) (p : String × β) (hnd : (l.map Prod.fst).Nodup)
    (hp : p ∈ alistSet l k v) :
    p = (k, v) ∨ (p ∈ l ∧ p.1 ≠ k) := by
  induction l with
  | nil =>
      simp only [alistSet, List.mem_singleton] at hp
      exact Or.inl hp
  | cons q rest ih =>
      obtain ⟨a, b⟩ := q
      simp only [List.map_cons, List.nodup_cons] at hnd
      by_cases ha : a = k
      · subst ha
        have hred : alistSet ((a, b) :: rest) a v = (a, v) :: rest := by
          simp [alistSet]
        rw [hred] at hp
        rcases List.mem_cons.mp hp with hp1 | hp1
        · exact Or.inl hp1
        · refine Or.inr ⟨List.mem_cons_of_mem _ hp1, ?_⟩
          intro he
          exact hnd.1 (he ▸ List.mem_map.mpr ⟨p, hp1, rfl⟩)
      · simp only [alistSet, if_neg ha] at hp
        rcases List.mem_cons.mp hp with hp1 | hp1
        · exact Or.inr ⟨by simp [hp1], by simp [hp1, ha]⟩
        · rcases ih hnd.2 hp1 with h | h
          · exact Or.inl h
          · exact Or.inr ⟨List.mem_cons_of_mem _ h.1, h.2⟩

theorem mem_eq_of_get_nodup {β : Type} (l : List (String × β)) (k : String)
    (v : β) (p : String × β) (hnd : (l.map Prod.fst).Nodup)
    (hg : alistGet l k = some v) (hp : p ∈ l) (hk : p.1 = k) :
    p = (k, v) := by
  induction l with
  | nil => simp at hp
  | cons q rest ih =>
      obtain ⟨a, b⟩ := q
      simp only [List.map_cons, List.nodup_cons] at hnd
      by_cases ha : a = k
      · subst ha
        have hred : alistGet ((a, b) :: rest) a = some b := by
          simp [alistGet]
        rw [hred] at hg
        injection hg with hg
        rcases List.mem_cons.mp hp with hp1 | hp1
        · simp [hp1, hg]
        · exact absurd (hk ▸ List.mem_map.mpr ⟨p, hp1, rfl⟩) hnd.1
      · simp only [alistGet, if_neg ha] at hg
        rcases List.mem_cons.mp hp with hp1 | hp1
        · exact absurd (by simp [hp1] at hk; exact hk) ha
        · exact ih hnd.2 hg hp1

theorem alistDelete_sublist {β : Type} (l : List (String × β)) (k : String) :
    (alistDelete l k).Sublist l := by
  induction l with
  | nil => simp [alistDelete]
  | cons p rest ih =>
      obtain ⟨a, b⟩ := p
      by_cases ha : a = k
      · simp only [alistDelete, if_pos ha]
        exact List.sublist_cons_self _ _
      · simp only [alistDelete, if_neg ha]
        exact List.Sublist.cons₂ _ ih

theorem keys_alistDelete_nodup {β : Type} (l : List (String × β)) (k : String)
    (hnd : (l.map Prod.fst).Nodup) :
    ((alistDelete l k).map Prod.fst).Nodup :=
  ((alistDelete_sublist l k).map Prod.fst).nodup hnd

/-! ### Unsubscribe teardown lemmas (claims C4, C8) -/

/-- `unsubscribe` either fails leaving everything unchanged (topic absent, or
client not subscribed) or rewrites the topic with the client's binding
deleted. -/
theorem unsubscribe_topics_shape (s : EngineState) (t c : String) :
    ((s.unsubscribe t c).2.topics = s.topics ∧
      (alistGet s.topics t = none ∨
       ∃ T, alistGet s.topics t = some T ∧
         alistHas T.subscribers c = false)) ∨
    ∃ T, alistGet s.topics t = some T ∧ alistHas T.subscribers c = true ∧
      (s.unsubscribe t c).2.topics
        = alistSet s.topics t
            { T with subscribers := alistDelete T.subscribers c } := by
  unfold EngineState.unsubscribe
  cases h : alistGet s.topics t with
  | none => exact Or.inl ⟨rfl, Or.inl rfl⟩
  | some T =>
      dsimp only
      by_cases hh : alistHas T.subscribers c = true
      · rw [if_pos hh]
        refine Or.inr ⟨T, rfl, hh, ?_⟩
        dsimp only
        cases alistGet s.clientTopics c with
        | none => rfl
        | some ts =>
            dsimp only
            by_cases he : ssetDelete ts t = []
            · rw [if_pos he]
            · rw [if_neg he]
      · rw [if_neg hh]
        exact Or.inl ⟨rfl, Or.inr ⟨T, rfl, Bool.eq_false_iff.mpr hh⟩⟩

/-- After unsubscribing a client from every topic it is subscribed to, the
client appears in no topic's subscriber map. -/
theorem unsubscribeAll_clears (c : String) (ts : List String) :
    ∀ s : EngineState,
      (s.topics.map Prod.fst).Nodup →
      (∀ p ∈ s.topics, (p.2.subscribers.map Prod.fst).Nodup) →
      (∀ p ∈ s.topics, alistHas p.2.subscribers c → p.1 ∈ ts) →
      ∀ p ∈ (s.unsubscribeAll ts c).topics,
        alistGet p.2.subscribers c = none := by
  induction ts with
  | nil =>
      intro s _ _ hcov p hp
      by_cases hh : alistHas p.2.subscribers c = true
      · exact absurd (hcov p hp hh) (List.not_mem_nil _)
      · cases hgc : alistGet p.2.subscribers c with
        | none => rfl
        | some w => exact absurd (by simp [alistHas, hgc]) hh
  | cons t rest ih =>
      intro s hndT hndS hcov
      have hfold : s.unsubscribeAll (t :: rest) c
          = ((s.unsubscribe t c).2).unsubscribeAll rest c := rfl
      rw [hfold]
      set s1 := (s.unsubscribe t c).2 with hs1
      rcases unsubscribe_topics_shape s t c with ⟨heq, hwhy⟩ | ⟨T, hT, hhas, heq⟩
      · -- state unchanged: the topic either does not exist or does not hold c
        refine ih s1 (by rw [heq]; exact hndT) (by rw [heq]; exact hndS) ?_
        rw [heq]
        intro p hp hmem
        have := hcov p hp hmem
        rcases List.mem_cons.mp this with he | he
        · exfalso
          rcases hwhy with hnone | ⟨T, hT, hno⟩
          · have := isSome_of_mem_keys s.topics t
              (he ▸ List.mem_map.mpr ⟨p, hp, rfl⟩)
            rw [hnone] at this
            simp at this
          · have hpT := mem_eq_of_get_nodup s.topics t T p hndT hT hp he
            rw [hpT] at hmem
            simp only at hmem
            rw [hmem] at hno
            simp at hno
        · exact he
      · -- the topic was rewritten with c removed
        have hkeys : (s1.topics.map Prod.fst) = s.topics.map Prod.fst := by
          rw [heq]
          exact keys_alistSet_of_mem s.topics t _
            (List.mem_map.mpr ⟨(t, T), alistGet_mem _ _ _ hT, rfl⟩)
        refine ih s1 (by rw [hkeys]; exact hndT) ?_ ?_
        · intro p hp
          rw [heq] at hp
          rcases mem_alistSet_cases s.topics t _ p hndT hp with hpe | ⟨hpm, _⟩
          · rw [hpe]
            exact keys_alistDelete_nodup _ _
              (hndS (t, T) (alistGet_mem _ _ _ hT))
          · exact hndS p hpm
        · intro p hp hmem
          rw [heq] at hp
          rcases mem_alistSet_cases s.topics t _ p hndT hp with hpe | ⟨hpm, hpne⟩
          · exfalso
            rw [hpe] at hmem
            simp only [alistHas] at hmem
            rw [alistGet_delete_self T.subscribers c
              (hndS (t, T) (alistGet_mem _ _ _ hT))] at hmem
            simp at hmem
          · rcases List.mem_cons.mp (hcov p hpm hmem) with he | he
            · exact absurd he hpne
            · exact he

/-! ### Claim C4 — disconnect backpressure and teardown -/

/-- C4: with policy `disconnect`, an `add` on a full queue (length = capacity)
rejects the message with reason `SLOW_CONSUMER`, leaves the queue contents and
`droppedCount` unchanged (the whole queue record is unchanged), and closes the
socket; the close handler then unsubscribes the client's bound identity from
every topic, so it appears in no topic's subscriber map and receives no
further deliveries. -/
theorem claim_C4_disconnect_backpressure
    (q : SubscriberQueue) (m : OutEvent)
    (hp : q.policy = Policy.disconnect)
    (hfull : q.queue.length = q.maxSize)
    (hs : HandlerState) (es : EngineState) (connId : String)
    (client : ClientInfo)
    (hcl : alistGet hs.clients connId = some client)
    (hndT : (es.topics.map Prod.fst).Nodup)
    (hndS : ∀ p ∈ es.topics, (p.2.subscribers.map Prod.fst).Nodup)
    (hcov : ∀ p ∈ es.topics,
       alistHas p.2.subscribers (pubsubClientId client connId) →
         p.1 ∈ client.topics) :
    ((q.add m).1.success = false ∧
     (q.add m).1.action = AddAction.disconnected ∧
     (q.add m).1.reason = some "SLOW_CONSUMER" ∧
     (q.add m).2.1 = q ∧ (q.add m).2.2 = true) ∧
    (∀ p ∈ (handleClose hs es connId).2.topics,
       alistGet p.2.subscribers (pubsubClientId client connId) = none) := by
  constructor
  · rw [q.add_full_disconnect m hp (le_of_eq hfull.symm)]
    exact ⟨rfl, rfl, rfl, rfl, rfl⟩
  · unfold handleClose
    rw [hcl]
    dsimp only
    exact unsubscribeAll_clears (pubsubClientId client connId) client.topics
      es hndT hndS hcov

/-- Witness for C4: the full disconnect queue `qFullDiscW` and the concrete
connection `"conn1"` bound to `"a"`, subscribed to `"t"`. -/
theorem claim_C4_disconnect_backpressure_witness :
    (qFullDiscW.policy = Policy.disconnect ∧
     qFullDiscW.queue.length = qFullDiscW.maxSize ∧
     alistGet hsW.clients "conn1" = some clientW ∧
     (engSubW.topics.map Prod.fst).Nodup ∧
     (∀ p ∈ engSubW.topics, (p.2.subscribers.map Prod.fst).Nodup) ∧
     (∀ p ∈ engSubW.topics,
        alistHas p.2.subscribers (pubsubClientId clientW "conn1") →
          p.1 ∈ clientW.topics)) ∧
    (((qFullDiscW.add (evW 3)).1.success = false ∧
      (qFullDiscW.add (evW 3)).1.action = AddAction.disconnected ∧
      (qFullDiscW.add (evW 3)).1.reason = some "SLOW_CONSUMER" ∧
      (qFullDiscW.add (evW 3)).2.1 = qFullDiscW ∧
      (qFullDiscW.add (evW 3)).2.2 = true) ∧
     (∀ p ∈ (handleClose hsW engSubW "conn1").2.topics,
        alistGet p.2.subscribers (pubsubClientId clientW "conn1") = none)) :=
  ⟨⟨rfl, rfl, rfl, by decide, by decide, by decide⟩,
   claim_C4_disconnect_backpressure qFullDiscW (evW 3) rfl rfl hsW engSubW
     "conn1" clientW rfl (by decide) (by decide) (by decide)⟩

/-! ### Claim C8 — subscriber-queue lifecycle -/

/-- A successful subscribe leaves the client with a queue: the existing one,
or a lazily created fresh one. -/
theorem subscribe_creates_queue (s : EngineState) (t c : String) (ws : ConnId)
    (lastN now : Nat) (openF : ConnId → Bool) (T : Topic)
    (ht : alistGet s.topics t = some T)
    (hnew : alistHas T.subscribers c = false) :
    alistGet ((s.subscribe t c ws lastN now openF).2.1).subscriberQueues c
      = some ((alistGet s.subscriberQueues c).getD
          (SubscriberQueue.mk0 c s.maxQueueSize s.backpressurePolicy)) := by
  unfold EngineState.subscribe
  rw [ht]
  dsimp only
  rw [if_neg (show ¬ (alistHas T.subscribers c = true) by simp [hnew])]
  dsimp only
  by_cases hq : alistHas s.subscriberQueues c = true
  · rw [if_pos hq]
    obtain ⟨q, hqq⟩ := Option.isSome_iff_exists.mp hq
    rw [hqq]
    rfl
  · rw [if_neg hq]
    have hnone : alistGet s.subscriberQueues c = none := by
      cases hg : alistGet s.subscriberQueues c with
      | none => rfl
      | some q => exact absurd (by simp [alistHas, hg]) hq
    rw [alistGet_set_self, hnone]
    rfl

/-- Unsubscribing a client's last subscription destroys its queue and its
`clientTopics` entry. -/
theorem unsubscribe_last_deletes_queue (s : EngineState) (t c : String)
    (T : Topic) (ts : List String)
    (ht : alistGet s.topics t = some T)
    (hsub : alistHas T.subscribers c = true)
    (hct : alistGet s.clientTopics c = some ts)
    (hlast : ssetDelete ts t = [])
    (hndQ : (s.subscriberQueues.map Prod.fst).Nodup)
    (hndC : (s.clientTopics.map Prod.fst).Nodup) :
    (s.unsubscribe t c).1 = true ∧
    alistGet ((s.unsubscribe t c).2).subscriberQueues c = none ∧
    alistGet ((s.unsubscribe t c).2).clientTopics c = none := by
  unfold EngineState.unsubscribe
  rw [ht]
  dsimp only
  rw [if_pos hsub]
  rw [hct]
  dsimp only
  rw [if_pos hlast]
  exact ⟨rfl, alistGet_delete_self _ _ hndQ, alistGet_delete_self _ _ hndC⟩

/-- `deleteTopic` never touches the subscriber-queue map. -/
theorem deleteTopic_queues_untouched (s : EngineState) (n : String) :
    ((s.deleteTopic n).2.1).subscriberQueues = s.subscriberQueues := by
  unfold EngineState.deleteTopic
  cases alistGet s.topics n with
  | none => rfl
  | some T => rfl

/-- Counterexample to C8 as stated: after `deleteTopic` removes client
`"a"`'s last subscription, the client holds zero subscriptions (its
`clientTopics` entry is gone and the topic map is empty) yet its
`SubscriberQueue` entry still exists. -/
theorem claim_C8_counterexample :
    alistGet ((engSubW.deleteTopic "t").2.1).clientTopics "a" = none ∧
    ((engSubW.deleteTopic "t").2.1).topics = [] ∧
    alistGet ((engSubW.deleteTopic "t").2.1).subscriberQueues "a"
      = some (SubscriberQueue.mk0 "a" 2 Policy.dropOldest) := by
  decide

/-- C8 (amended): a client's `SubscriberQueue` is created lazily on its first
subscribe; `unsubscribe` of the client's last subscription (directly, or as
iterated by `disconnectClient`) destroys the queue together with the
`clientTopics` entry; `deleteTopic`, however, leaves the queue map untouched,
so after a `deleteTopic` that removed the client's last subscription the queue
entry survives (contrary to the claim as stated:
`claim_C8_counterexample`). -/
theorem claim_C8_queue_lifecycle_amended
    (s : EngineState) (t c : String) (ws : ConnId) (lastN now : Nat)
    (openF : ConnId → Bool) (T : Topic)
    (ht : alistGet s.topics t = some T)
    (hnew : alistHas T.subscribers c = false)
    (s2 : EngineState) (t2 c2 : String) (T2 : Topic) (ts2 : List String)
    (ht2 : alistGet s2.topics t2 = some T2)
    (hsub2 : alistHas T2.subscribers c2 = true)
    (hct2 : alistGet s2.clientTopics c2 = some ts2)
    (hlast2 : ssetDelete ts2 t2 = [])
    (hts2 : ts2 = [t2])
    (hndQ2 : (s2.subscriberQueues.map Prod.fst).Nodup)
    (hndC2 : (s2.clientTopics.map Prod.fst).Nodup)
    (s3 : EngineState) (n3 : String) :
    (alistGet ((s.subscribe t c ws lastN now openF).2.1).subscriberQueues c
       = some ((alistGet s.subscriberQueues c).getD
           (SubscriberQueue.mk0 c s.maxQueueSize s.backpressurePolicy))) ∧
    ((s2.unsubscribe t2 c2).1 = true ∧
     alistGet ((s2.unsubscribe t2 c2).2).subscriberQueues c2 = none ∧
     alistGet ((s2.unsubscribe t2 c2).2).clientTopics c2 = none) ∧
    (s2.disconnectClient c2 = (true, (s2.unsubscribe t2 c2).2)) ∧
    ((s3.deleteTopic n3).2.1.subscriberQueues = s3.subscriberQueues) := by
  refine ⟨subscribe_creates_queue s t c ws lastN now openF T ht hnew,
    unsubscribe_last_deletes_queue s2 t2 c2 T2 ts2 ht2 hsub2 hct2 hlast2
      hndQ2 hndC2, ?_, deleteTopic_queues_untouched s3 n3⟩
  unfold EngineState.disconnectClient
  rw [hct2, hts2]
  rfl

/-- Witness for the amended C8 at concrete states: `"b"` subscribing afresh to
`"t"` in `engSubW`, `"a"` unsubscribing its only topic `"t"`, and an arbitrary
`deleteTopic`. -/
theorem claim_C8_queue_lifecycle_amended_witness :
    (alistGet engSubW.topics "t" = some topicSubW ∧
     alistHas topicSubW.subscribers "b" = false ∧
     alistGet engSubW.clientTopics "a" = some ["t"] ∧
     alistHas topicSubW.subscribers "a" = true ∧
     ssetDelete ["t"] "t" = [] ∧
     (engSubW.subscriberQueues.map Prod.fst).Nodup ∧
     (engSubW.clientTopics.map Prod.fst).Nodup) ∧
    ((alistGet ((engSubW.subscribe "t" "b" "w2" 0 0
         (fun _ => true)).2.1).subscriberQueues "b"
       = some ((alistGet engSubW.subscriberQueues "b").getD
           (SubscriberQueue.mk0 "b" engSubW.maxQueueSize
             engSubW.backpressurePolicy))) ∧
     ((engSubW.unsubscribe "t" "a").1 = true ∧
      alistGet ((engSubW.unsubscribe "t" "a").2).subscriberQueues "a" = none ∧
      alistGet ((engSubW.unsubscribe "t" "a").2).clientTopics "a" = none) ∧
     (engSubW.disconnectClient "a" = (true, (engSubW.unsubscribe "t" "a").2)) ∧
     ((engSubW.deleteTopic "x").2.1.subscriberQueues
        = engSubW.subscriberQueues)) :=
  ⟨⟨rfl, by decide, rfl, by decide, by decide, by decide, by decide⟩,
   claim_C8_queue_lifecycle_amended engSubW "t" "b" "w2" 0 0 (fun _ => true)
     topicSubW rfl (by decide) engSubW "t" "a" topicSubW ["t"] rfl (by decide)
     rfl (by decide) rfl (by decide) (by decide) engSubW "x"⟩

/-! ### Claim C6 — deleteTopic -/

theorem not_mem_ssetDelete (l : List String) (x : String) :
    x ∉ ssetDelete l x := by
  intro h
  have := (List.mem_filter.mp h).2
  simp at this

/-- C6 (amended): `deleteTopic` returns `false` (with no effects) when the
topic is absent; otherwise it emits a close for every subscriber connection,
removes the topic, scrubs the topic from every client's bookkeeping (dropping
empty entries), and returns `true` — the engine method returns a boolean, and
the `{subscribersDisconnected, messagesLost}` counts of the claim are computed
by the REST route from the pre-deletion `getTopic` snapshot
(`routeDeleteTopic`). -/
theorem claim_C6_delete_topic_amended
    (s : EngineState) (nAbs n : String) (T : Topic)
    (hAbs : alistGet s.topics nAbs = none)
    (hT : alistGet s.topics n = some T)
    (hndT : (s.topics.map Prod.fst).Nodup) :
    (s.deleteTopic nAbs = (false, s, [])) ∧
    ((s.deleteTopic n).1 = true ∧
     alistGet ((s.deleteTopic n).2.1).topics n = none ∧
     (s.deleteTopic n).2.2
       = T.subscribers.map (fun p => Effect.close p.2 1000 "Topic deleted") ∧
     (∀ p ∈ ((s.deleteTopic n).2.1).clientTopics, n ∉ p.2 ∧ p.2 ≠ [])) ∧
    (routeDeleteTopic s n
       = (some (T.subscribers.length, T.messages.length),
          (s.deleteTopic n).2.1, (s.deleteTopic n).2.2)) := by
  have habs : s.deleteTopic nAbs = (false, s, []) := by
    unfold EngineState.deleteTopic
    rw [hAbs]
  have hdel : (s.deleteTopic n).1 = true := by
    unfold EngineState.deleteTopic
    rw [hT]
  refine ⟨habs, ⟨hdel, ?_, ?_, ?_⟩, ?_⟩
  · unfold EngineState.deleteTopic
    rw [hT]
    dsimp only
    exact alistGet_delete_self _ _ hndT
  · unfold EngineState.deleteTopic
    rw [hT]
  · unfold EngineState.deleteTopic
    rw [hT]
    dsimp only
    intro p hp
    have hm := List.mem_filter.mp hp
    obtain ⟨q, hq, hqe⟩ := List.mem_map.mp hm.1
    constructor
    · rw [← hqe]
      exact not_mem_ssetDelete q.2 n
    · have := hm.2
      simpa using this
  · unfold routeDeleteTopic
    rw [if_neg (show ¬¬(alistHas s.topics n = true) from
      fun hno => hno (by simp [alistHas, hT]))]
    have hsnap : s.getTopic n = some
        { name := n, subscribers := T.subscribers.length,
          messages := T.messages.length, createdAt := T.createdAt } := by
      unfold EngineState.getTopic
      rw [hT]
      rfl
    rw [hsnap]
    dsimp only
    rw [if_pos hdel]

/-- Counterexample to C6 as stated: the engine's `deleteTopic` returns the
boolean `true` on success, not a `{subscribersDisconnected, messagesLost}`
record — at two concrete states whose topic `"t"` has different subscriber
and message counts (1 subscriber and 2 messages versus none of either) the
returned value is identical, so it cannot carry the counts; the counts
appear only in the REST route's response. -/
theorem claim_C6_counterexample :
    (engSubW.deleteTopic "t").1 = (engW.deleteTopic "t").1 ∧
    engSubW.getTopic "t"
      = some { name := "t", subscribers := 1, messages := 2, createdAt := 0 } ∧
    engW.getTopic "t"
      = some { name := "t", subscribers := 0, messages := 0, createdAt := 0 } ∧
    routeDeleteTopic engSubW "t"
      = (some (1, 2), (engSubW.deleteTopic "t").2.1,
         (engSubW.deleteTopic "t").2.2) := by
  decide

/-- Witness for the amended C6 at the concrete state `engSubW`. -/
theorem claim_C6_delete_topic_amended_witness :
    (alistGet engSubW.topics "nope" = none ∧
     alistGet engSubW.topics "t" = some topicSubW ∧
     (engSubW.topics.map Prod.fst).Nodup) ∧
    ((engSubW.deleteTopic "nope" = (false, engSubW, [])) ∧
     ((engSubW.deleteTopic "t").1 = true ∧
      alistGet ((engSubW.deleteTopic "t").2.1).topics "t" = none ∧
      (engSubW.deleteTopic "t").2.2
        = topicSubW.subscribers.map
            (fun p => Effect.close p.2 1000 "Topic deleted") ∧
      (∀ p ∈ ((engSubW.deleteTopic "t").2.1).clientTopics,
         "t" ∉ p.2 ∧ p.2 ≠ [])) ∧
     (routeDeleteTopic engSubW "t"
        = (some (topicSubW.subscribers.length, topicSubW.messages.length),
           (engSubW.deleteTopic "t").2.1, (engSubW.deleteTopic "t").2.2))) :=
  ⟨⟨rfl, rfl, by decide⟩,
   claim_C6_delete_topic_amended engSubW "nope" "t" topicSubW rfl rfl
     (by decide)⟩

/-! ### Claim C7 — client identity binding -/

/-- A failed subscribe leaves the engine state unchanged. -/
theorem subscribe_fail_state (s : EngineState) (t c : String) (ws : ConnId)
    (lastN now : Nat) (openF : ConnId → Bool)
    (h : (s.subscribe t c ws lastN now openF).1.success = false) :
    (s.subscribe t c ws lastN now openF).2.1 = s := by
  unfold EngineState.subscribe at h ⊢
  revert h
  cases hg : alistGet s.topics t with
  | none => intro _; rfl
  | some T =>
      intro h
      dsimp only at h ⊢
      by_cases hh : alistHas T.subscribers c = true
      · rw [if_pos hh]
      · rw [if_neg hh] at h
        simp at h

/-- A failed unsubscribe leaves the engine state unchanged. -/
theorem unsubscribe_fail_state (s : EngineState) (t c : String)
    (h : (s.unsubscribe t c).1 = false) :
    (s.unsubscribe t c).2 = s := by
  unfold EngineState.unsubscribe at h ⊢
  revert h
  cases hg : alistGet s.topics t with
  | none => intro _; rfl
  | some T =>
      intro h
      dsimp only at h ⊢
      by_cases hh : alistHas T.subscribers c = true
      · rw [if_pos hh] at h
        revert h
        cases hct : alistGet s.clientTopics c with
        | none => intro h; simp at h
        | some ts =>
            intro h
            dsimp only at h
            by_cases he : ssetDelete ts t = []
            · rw [if_pos he] at h; simp at h
            · rw [if_neg he] at h; simp at h
      · rw [if_neg hh]

/-- `handleSubscribe` keeps the connection's bound identity and drives the
engine's `subscribe` with `pubsubClientId` of the connection record. -/
theorem handleSubscribe_conn (hs : HandlerState) (es : EngineState)
    (openF : ConnId → Bool) (connId : String) (topic : Option String)
    (lastN now : Nat) (cl : ClientInfo)
    (hcl : alistGet hs.clients connId = some cl) :
    (alistGet (handleSubscribe hs es openF connId topic lastN now).1.clients
       connId).map ClientInfo.clientProvidedId = some cl.clientProvidedId ∧
    (∀ t, topic = some t →
       (handleSubscribe hs es openF connId topic lastN now).2.1
         = (es.subscribe t (pubsubClientId cl connId) cl.ws lastN now
             openF).2.1) := by
  cases topic with
  | none =>
      refine ⟨?_, fun t ht => by cases ht⟩
      have hred : handleSubscribe hs es openF connId none lastN now
          = (hs, es, [HEffect.sendError connId "BAD_REQUEST"]) := rfl
      rw [hred, hcl]
      rfl
  | some t =>
      unfold handleSubscribe
      rw [hcl]
      dsimp only
      by_cases h : (es.subscribe t (pubsubClientId cl connId) cl.ws lastN now
          openF).1.success = true
      · rw [if_pos h]
        refine ⟨?_, fun t' ht' => ?_⟩
        · rw [alistGet_set_self]
          rfl
        · injection ht' with ht'
          subst ht'
          rfl
      · rw [if_neg h]
        refine ⟨by rw [hcl]; rfl, fun t' ht' => ?_⟩
        injection ht' with ht'
        subst ht'
        exact (subscribe_fail_state es t _ cl.ws lastN now openF
          (Bool.eq_false_iff.mpr h)).symm

/-- `handleUnsubscribe` keeps the connection's bound identity and drives the
engine's `unsubscribe` with `pubsubClientId` of the connection record. -/
theorem handleUnsubscribe_conn (hs : HandlerState) (es : EngineState)
    (connId : String) (topic : Option String) (cl : ClientInfo)
    (hcl : alistGet hs.clients connId = some cl) :
    (alistGet (handleUnsubscribe hs es connId topic).1.clients connId).map
      ClientInfo.clientProvidedId = some cl.clientProvidedId ∧
    (∀ t, topic = some t →
       (handleUnsubscribe hs es connId topic).2.1
         = (es.unsubscribe t (pubsubClientId cl connId)).2) := by
  cases topic with
  | none =>
      refine ⟨?_, fun t ht => by cases ht⟩
      have hred : handleUnsubscribe hs es connId none
          = (hs, es, [HEffect.sendError connId "BAD_REQUEST"]) := rfl
      rw [hred, hcl]
      rfl
  | some t =>
      unfold handleUnsubscribe
      rw [hcl]
      dsimp only
      by_cases h : (es.unsubscribe t (pubsubClientId cl connId)).1 = true
      · rw [if_pos h]
        refine ⟨?_, fun t' ht' => ?_⟩
        · rw [alistGet_set_self]
          rfl
        · injection ht' with ht'
          subst ht'
          rfl
      · rw [if_neg h]
        refine ⟨by rw [hcl]; rfl, fun t' ht' => ?_⟩
        injection ht' with ht'
        subst ht'
        exact (unsubscribe_fail_state es t _ (Bool.eq_false_iff.mpr h)).symm

/-- `handlePublish` never touches the handler's client map. -/
theorem handlePublish_clients (hs : HandlerState) (es : EngineState)
    (openF : ConnId → Bool) (connId : String) (topic : Option String)
    (msg : Option Message) (now : Nat) :
    (handlePublish hs es openF connId topic msg now).1 = hs := by
  cases topic with
  | none => rfl
  | some t =>
      cases msg with
      | none => rfl
      | some m =>
          unfold handlePublish
          repeat' split
          all_goals try rfl
          all_goals (dsimp only; split <;> rfl)

/-- A structurally invalid message (unknown type, or a topic-less
subscribe/unsubscribe/publish) is rejected with `BAD_REQUEST` before the
identity store: the handler state — including any earlier binding — and the
engine state are unchanged. -/
theorem handleMessage_invalid (hs : HandlerState) (es : EngineState)
    (openF : ConnId → Bool) (connId : String) (msg : InMsg) (now : Nat)
    (hv : validateMessage msg = false) :
    handleMessage hs es openF connId msg now
      = (hs, es, [HEffect.sendError connId "BAD_REQUEST"]) := by
  unfold handleMessage
  rw [if_pos (by simp [hv])]

/-- C7 (amended): a protocol message that passes structural validation
(`validateMessage`: known type, and a topic for subscribe/unsubscribe/
publish) and carries a client identity rebinds the connection to that
identity — the most recently supplied `client_id` wins, overwriting any
earlier binding — and the dispatched subscribe/unsubscribe uses the identity
carried by this message, not the first-bound one.  (The claim as stated —
first binding immutable for the connection's life — is refuted by
`claim_C7_counterexample`.) -/
theorem claim_C7_identity_rebinding_amended
    (hs : HandlerState) (es : EngineState) (openF : ConnId → Bool)
    (connId : String) (msg : InMsg) (now : Nat) (client : ClientInfo)
    (i : String)
    (hv : validateMessage msg = true)
    (hcl : alistGet hs.clients connId = some client)
    (hid : msg.client_id = some i) :
    (alistGet (handleMessage hs es openF connId msg now).1.clients
       connId).map ClientInfo.clientProvidedId = some (some i) ∧
    (∀ t, msg.type = "subscribe" → msg.topic = some t →
       (handleMessage hs es openF connId msg now).2.1
         = (es.subscribe t i client.ws (msg.last_n.getD 0) now openF).2.1) ∧
    (∀ t, msg.type = "unsubscribe" → msg.topic = some t →
       (handleMessage hs es openF connId msg now).2.1
         = (es.unsubscribe t i).2) := by
  unfold handleMessage
  rw [if_neg (show ¬¬(validateMessage msg = true) from fun hc => hc hv)]
  rw [if_neg (show ¬ ((msg.type = "subscribe" ∨ msg.type = "unsubscribe" ∨
      msg.type = "publish") ∧ msg.client_id = none) from fun hcond => by
    rw [hid] at hcond
    exact Option.noConfusion hcond.2)]
  rw [hcl, hid]
  dsimp only
  set cl' : ClientInfo := { client with clientProvidedId := some i } with hcl'
  have hget : alistGet (alistSet hs.clients connId cl') connId = some cl' :=
    alistGet_set_self _ _ _
  have hpub : pubsubClientId cl' connId = i := rfl
  by_cases h1 : msg.type = "subscribe"
  · rw [if_pos h1]
    obtain ⟨ha, hb⟩ := handleSubscribe_conn
      { clients := alistSet hs.clients connId cl' } es openF connId msg.topic
      (msg.last_n.getD 0) now cl' hget
    exact ⟨ha, fun t _ ht => by rw [hb t ht]; rfl,
      fun t h2 _ => by rw [h1] at h2; exact absurd h2 (by decide)⟩
  · rw [if_neg h1]
    by_cases h2 : msg.type = "unsubscribe"
    · rw [if_pos h2]
      obtain ⟨ha, hb⟩ := handleUnsubscribe_conn
        { clients := alistSet hs.clients connId cl' } es connId msg.topic
        cl' hget
      exact ⟨ha, fun t hs' _ => absurd hs' h1,
        fun t _ ht => by rw [hb t ht]; rfl⟩
    · rw [if_neg h2]
      by_cases h3 : msg.type = "publish"
      · rw [if_pos h3]
        refine ⟨?_, fun t hs' _ => absurd hs' h1, fun t hu _ => absurd hu h2⟩
        rw [handlePublish_clients]
        rw [hget]
        rfl
      · rw [if_neg h3]
        by_cases h4 : msg.type = "ping"
        · rw [if_pos h4]
          exact ⟨by rw [hget]; rfl, fun t hs' _ => absurd hs' h1,
            fun t hu _ => absurd hu h2⟩
        · rw [if_neg h4]
          exact ⟨by rw [hget]; rfl, fun t hs' _ => absurd hs' h1,
            fun t hu _ => absurd hu h2⟩

/-- Counterexample to C7 as stated: on one connection, the first message binds
`"alice"`, but a later subscribe carrying `client_id = "bob"` rebinds the
connection and registers the subscription under `"bob"`, not under the
first-bound `"alice"`. -/
theorem claim_C7_counterexample :
    ((alistGet c7Step1.1.clients "conn1").map
       ClientInfo.clientProvidedId = some (some "alice")) ∧
    ((alistGet c7Step2.1.clients "conn1").map
       ClientInfo.clientProvidedId = some (some "bob")) ∧
    ((alistGet c7Step2.2.1.topics "t2").map
       (fun T => (alistGet T.subscribers "bob",
                  alistGet T.subscribers "alice"))
      = some (some "conn1", none)) := by
  decide

/-- Witness for the amended C7: the second message of the concrete run rebinds
the connection to `"bob"` and subscribes `"bob"`. -/
theorem claim_C7_identity_rebinding_amended_witness :
    (validateMessage (subMsgW "t2" "bob") = true ∧
     alistGet c7Step1.1.clients "conn1"
       = some { ws := "conn1", topics := ["t1"],
                clientProvidedId := some "alice" } ∧
     (subMsgW "t2" "bob").client_id = some "bob") ∧
    ((alistGet (handleMessage c7Step1.1 c7Step1.2.1 (fun _ => true) "conn1"
        (subMsgW "t2" "bob") 0).1.clients "conn1").map
        ClientInfo.clientProvidedId = some (some "bob") ∧
     (∀ t, (subMsgW "t2" "bob").type = "subscribe" →
        (subMsgW "t2" "bob").topic = some t →
        (handleMessage c7Step1.1 c7Step1.2.1 (fun _ => true) "conn1"
           (subMsgW "t2" "bob") 0).2.1
          = (c7Step1.2.1.subscribe t "bob" "conn1"
              (((subMsgW "t2" "bob").last_n).getD 0) 0 (fun _ => true)).2.1) ∧
     (∀ t, (subMsgW "t2" "bob").type = "unsubscribe" →
        (subMsgW "t2" "bob").topic = some t →
        (handleMessage c7Step1.1 c7Step1.2.1 (fun _ => true) "conn1"
           (subMsgW "t2" "bob") 0).2.1
          = (c7Step1.2.1.unsubscribe t "bob").2)) :=
  ⟨⟨by decide, by decide, rfl⟩,
   claim_C7_identity_rebinding_amended c7Step1.1 c7Step1.2.1 (fun _ => true)
     "conn1" (subMsgW "t2" "bob") 0
     { ws := "conn1", topics := ["t1"], clientProvidedId := some "alice" }
     "bob" (by decide) (by decide) rfl⟩

end PubSub
